import Mathlib

/-!
# LibrarySystem (libsys.c): a shallow embedding and its verified properties

The development follows the single C source file `libsys.c`.

Modelling conventions.

* Machine integers are `Nat` / `Int`; where the C arithmetic can wrap the
  model reduces modulo `2 ^ 32` (or `2 ^ 64` for `size_t`, the x86-64 ABI the
  program is built for) explicitly.
* A fixed-capacity `char` buffer is the list of its bytes.  The C string
  functions do not know the capacity: `strcmp` reads from the address it is
  given up to the first NUL and `strcpy` writes the whole string, across the
  end of the field and into the fields behind it.  Both are therefore modelled
  on the bytes of the enclosing struct (section "Byte images").
* A record store (`TList`) is modelled twice: as the doubly linked list of
  heap nodes the C code manipulates (section "Linked list on a heap"), and as
  the sequence of its records (a Lean `List`), which is what the service
  functions work with.  A pointer to a record of a store is the position of
  the record in that sequence.
* A call that dereferences NULL (or an invalid pointer) has no result: the
  functions return `Option`, and `none` stands for such a run.
* The wall clock (`GetTimestamp`), the C library's `mktime` and `atoi`, and
  the floating-point fee computation are inputs of the model.
-/

namespace LibSys

/-! ## Data model (libsys.c, lines 26-125) -/

/-- `Timestamp`: `int16_t year` and six `int8_t` fields. -/
structure Timestamp where
  year : Int
  month : Int
  day : Int
  weekday : Int
  hour : Int
  min : Int
  sec : Int
deriving DecidableEq, Repr

/-- `enum UserGroup { User = 0, Manager, Admin }`. -/
inductive UserGroup where
  | User
  | Manager
  | Admin
deriving DecidableEq, Repr

/-! ### `enum Permission` -/

def BookService : Nat := 0x0007
def AccountService : Nat := 0x0038
def LibraryService : Nat := 0x00C0
def PropertyService : Nat := 0x0300
def RecordService : Nat := 0x0C00
def Borrow : Nat := 0b001
def Return : Nat := 0b010
def Query : Nat := 0b100
def Register : Nat := 0b001000
def Login : Nat := 0b010000
def CancelAccount : Nat := 0b100000
def AddBook : Nat := 0b01000000
def ModifyBook : Nat := 0b10000000
def Recharge : Nat := 0b0100000000
def Deduct : Nat := 0b1000000000
def NewRecord : Nat := 0b010000000000
def WithdrawRecord : Nat := 0b100000000000
def UserAccess : Nat := BookService ||| AccountService ||| Recharge
def ManagerAccess : Nat := Query ||| LibraryService ||| RecordService
def AdminAccess : Nat :=
  BookService ||| AccountService ||| LibraryService ||| PropertyService ||| RecordService

/-- `AccountRecord`.  `account` and `password` are the 16-byte buffers,
`hashkey` and `id` are `uint32_t`, `amount` is `int32_t`. -/
structure AccountRecord where
  group : UserGroup
  account : List Nat
  password : List Nat
  hashkey : Nat
  id : Nat
  amount : Int
  tm_register : Timestamp
deriving DecidableEq, Repr

/-- `BookRecord`.  `stock` is `size_t`; `ISBN`, `author`, `name` are the 24-,
32- and 64-byte buffers. -/
structure BookRecord where
  stock : Nat
  ISBN : List Nat
  author : List Nat
  name : List Nat
  tm_introduce : Timestamp
deriving DecidableEq, Repr

/-- `BorrowRecord`.  `loan_time` and `borrower_id` are `uint32_t`. -/
structure BorrowRecord where
  ISBN : List Nat
  loan_time : Nat
  borrower_id : Nat
  tm_borrow : Timestamp
  tm_return : Timestamp
deriving DecidableEq, Repr

/-- `LibraryDBInfo`: three `uint16_t` sizes, a `uint16_t` pad, three
`uint32_t` counts, a `uint32_t` pad. -/
structure LibraryDBInfo where
  account_rec_size : Nat
  book_rec_size : Nat
  borrow_rec_size : Nat
  unused_1 : Nat
  account_rec_num : Nat
  book_rec_num : Nat
  borrow_rec_num : Nat
  unused_2 : Nat
deriving DecidableEq, Repr

/-- `LibraryDB`: the header and the three record stores, each store given by
the sequence of its records from head to tail. -/
structure LibraryDB where
  header : LibraryDBInfo
  AccountRecords : List AccountRecord
  BookRecords : List BookRecord
  BorrowRecords : List BorrowRecord
deriving DecidableEq, Repr

/-- `Session`.  `host_ref` points at a record of the account store: it is the
position of that record in `AccountRecords`. -/
structure Session where
  host_ref : Nat
  tm_establish : Timestamp
deriving DecidableEq, Repr

/-- `LibSysDescription` without the file path; `session = none` is the NULL
session. -/
structure LibrarySystem where
  database : LibraryDB
  session : Option Session
deriving DecidableEq, Repr

/-- The lines the service functions print with `puts`, by meaning. -/
inductive Msg where
  | borrowNotOpen
  | borrowClosedForDebt
  | bookMissing
  | noStock
  | badLoanDays
  | borrowDone
  | returnNoSuchIndex
  | returnDone
  | returnDoneLate
  | returnDoneLateInDebt
  | cancelBuiltinAdmin
  | cancelHasBorrows
  | cancelInDebt
  | cancelDone
  | cancelUnknownError
  | rechargeDone
  | rechargeInvalid
  | manageNotOpen
  | manageNoSuchAccount
  | manageIsCurrent
  | unknownOption
  | registerMismatch
  | registerExists
  | registerDone
  | newBookNotOpen
  | newBookDenied
  | newBookBadNumber
  | newBookRestocked
  | newBookDone
deriving DecidableEq, Repr

/-! ## Helpers -/

/-- The C string at an address: `mem` is the memory from that address on, the
string is the bytes before the first NUL. -/
def cstr (mem : List Nat) : List Nat :=
  mem.takeWhile (fun b => b != 0)

/-- `strcpy(dst, src)` where `dst` lies at offset `off` of the object `obj`,
given by its bytes: the string at `src` and its terminating NUL are written
from `off` on, over the destination field and, when the string is longer than
the field, over the fields behind it; the other bytes of the object keep
their values.  (Bytes written past the end of the object land outside it and
are not part of the result.) -/
def strcpy (obj : List Nat) (off : Nat) (src : List Nat) : List Nat :=
  (obj.take off ++ ((cstr src ++ [0]) ++ obj.drop (off + (cstr src).length + 1))).take obj.length

/-- `strcmp(a, b) == 0`, `a` and `b` the memory from the two addresses on. -/
def streq (a b : List Nat) : Bool :=
  cstr a == cstr b

/-- A zeroed buffer of `n` bytes. -/
def zeros (n : Nat) : List Nat :=
  List.replicate n 0

/-- The zero `Timestamp` (`= { }`). -/
def Timestamp.zero : Timestamp :=
  { year := 0, month := 0, day := 0, weekday := 0, hour := 0, min := 0, sec := 0 }

/-! ## Byte images (libsys.c, lines 26-95)

A record's image is the memory of the C struct: the fields in declaration
order at their offsets, integers little-endian and signed ones in two's
complement (x86-64, where none of the structs has padding: `Timestamp` 8
bytes, `AccountRecord` 56, `BookRecord` 136, `BorrowRecord` 48,
`LibraryDBInfo` 24). -/

/-- The `w` bytes of an unsigned integer, least significant first. -/
def putU : Nat → Nat → List Nat
  | 0, _ => []
  | w + 1, x => x % 256 :: putU w (x / 256)

/-- The unsigned integer held in bytes, least significant first. -/
def getU : List Nat → Nat
  | [] => 0
  | b :: bs => b + 256 * getU bs

/-- The `w` bytes of a signed integer in two's complement. -/
def putS (w : Nat) (x : Int) : List Nat :=
  putU w (x % 256 ^ w).toNat

/-- The signed integer held in `w` bytes in two's complement. -/
def getS (w : Nat) (bs : List Nat) : Int :=
  if 2 * getU bs < 256 ^ w then (getU bs : Int) else (getU bs : Int) - 256 ^ w

/-- The `w` bytes at offset `off`. -/
def field (bs : List Nat) (off w : Nat) : List Nat :=
  (bs.drop off).take w

/-- The value of the enumeration constant. -/
def UserGroup.value : UserGroup → Nat
  | UserGroup.User => 0
  | UserGroup.Manager => 1
  | UserGroup.Admin => 2

/-- The enumeration constant of a stored value.  No code path stores a value
other than 0, 1, 2; such a value is read as `User`. -/
def UserGroup.ofValue : Nat → UserGroup
  | 1 => UserGroup.Manager
  | 2 => UserGroup.Admin
  | _ => UserGroup.User

/-- The image of a `Timestamp` (8 bytes). -/
def encodeTimestamp (t : Timestamp) : List Nat :=
  putS 2 t.year ++ (putS 1 t.month ++ (putS 1 t.day ++ (putS 1 t.weekday ++
    (putS 1 t.hour ++ (putS 1 t.min ++ putS 1 t.sec)))))

/-- The `Timestamp` an image holds. -/
def decodeTimestamp (bs : List Nat) : Timestamp :=
  { year := getS 2 (field bs 0 2)
    month := getS 1 (field bs 2 1)
    day := getS 1 (field bs 3 1)
    weekday := getS 1 (field bs 4 1)
    hour := getS 1 (field bs 5 1)
    min := getS 1 (field bs 6 1)
    sec := getS 1 (field bs 7 1) }

/-- The image of an `AccountRecord` (56 bytes). -/
def encodeAccount (r : AccountRecord) : List Nat :=
  putU 4 r.group.value ++ (r.account ++ (r.password ++ (putU 4 r.hashkey ++
    (putU 4 r.id ++ (putS 4 r.amount ++ encodeTimestamp r.tm_register)))))

/-- The `AccountRecord` an image holds. -/
def decodeAccount (bs : List Nat) : AccountRecord :=
  { group := UserGroup.ofValue (getU (field bs 0 4))
    account := field bs 4 16
    password := field bs 20 16
    hashkey := getU (field bs 36 4)
    id := getU (field bs 40 4)
    amount := getS 4 (field bs 44 4)
    tm_register := decodeTimestamp (field bs 48 8) }

/-- The image of a `BookRecord` (136 bytes). -/
def encodeBook (r : BookRecord) : List Nat :=
  putU 8 r.stock ++ (r.ISBN ++ (r.author ++ (r.name ++ encodeTimestamp r.tm_introduce)))

/-- The `BookRecord` an image holds. -/
def decodeBook (bs : List Nat) : BookRecord :=
  { stock := getU (field bs 0 8)
    ISBN := field bs 8 24
    author := field bs 32 32
    name := field bs 64 64
    tm_introduce := decodeTimestamp (field bs 128 8) }

/-- The image of a `BorrowRecord` (48 bytes). -/
def encodeBorrow (r : BorrowRecord) : List Nat :=
  r.ISBN ++ (putU 4 r.loan_time ++ (putU 4 r.borrower_id ++
    (encodeTimestamp r.tm_borrow ++ encodeTimestamp r.tm_return)))

/-- The `BorrowRecord` an image holds. -/
def decodeBorrow (bs : List Nat) : BorrowRecord :=
  { ISBN := field bs 0 24
    loan_time := getU (field bs 24 4)
    borrower_id := getU (field bs 28 4)
    tm_borrow := decodeTimestamp (field bs 32 8)
    tm_return := decodeTimestamp (field bs 40 8) }

/-- `sizeof(AccountRecord)`. -/
def sizeofAccount : Nat := 56

/-- `sizeof(BookRecord)`. -/
def sizeofBook : Nat := 136

/-- `sizeof(BorrowRecord)`. -/
def sizeofBorrow : Nat := 48

/-- `sizeof(LibraryDBInfo)`. -/
def sizeofHeader : Nat := 24

/-! ### What the string functions read

`strcmp(record->account, ...)`, `strcmp(record->ISBN, ...)` and
`strcpy(..., book->ISBN)` read a record from the field on, up to the first
NUL, whether or not that lies inside the field.  The views below give the
memory from each `char` field to the end of its record.  (A record that holds
no NUL at all from the field on is read past its end in C; the view ends with
the record.) -/

/-- The memory of an `AccountRecord` from its `account` field on (offset
4). -/
def AccountRecord.atAccount (r : AccountRecord) : List Nat :=
  r.account ++ (r.password ++ (putU 4 r.hashkey ++ (putU 4 r.id ++ (putS 4 r.amount ++
    encodeTimestamp r.tm_register))))

/-- The memory of an `AccountRecord` from its `password` field on (offset
20). -/
def AccountRecord.atPassword (r : AccountRecord) : List Nat :=
  r.password ++ (putU 4 r.hashkey ++ (putU 4 r.id ++ (putS 4 r.amount ++
    encodeTimestamp r.tm_register)))

/-- The memory of a `BookRecord` from its `ISBN` field on (offset 8). -/
def BookRecord.atISBN (r : BookRecord) : List Nat :=
  r.ISBN ++ (r.author ++ (r.name ++ encodeTimestamp r.tm_introduce))

/-- The memory of a `BookRecord` from its `author` field on (offset 32). -/
def BookRecord.atAuthor (r : BookRecord) : List Nat :=
  r.author ++ (r.name ++ encodeTimestamp r.tm_introduce)

/-- The memory of a `BookRecord` from its `name` field on (offset 64). -/
def BookRecord.atName (r : BookRecord) : List Nat :=
  r.name ++ encodeTimestamp r.tm_introduce

/-- The memory of a `BorrowRecord` from its `ISBN` field on (offset 0): the
whole record. -/
def BorrowRecord.atISBN (r : BorrowRecord) : List Nat :=
  encodeBorrow r

/-! ## Permissions (libsys.c, lines 292-305) -/

/-- The table `access[]` shared by `RequireService` and `CheckAccess`. -/
def accessOf : UserGroup → Nat
  | UserGroup.User => UserAccess
  | UserGroup.Manager => ManagerAccess
  | UserGroup.Admin => AdminAccess

/-- `RequireService`: the group has some bit of the service. -/
def RequireService (identity : UserGroup) (service : Nat) : Bool :=
  (accessOf identity &&& service) != 0

/-- `CheckAccess`: the group has every bit of the operation. -/
def CheckAccess (identity : UserGroup) (op : Nat) : Bool :=
  (accessOf identity &&& op) == op

/-! ## Record stores as sequences -/

/-- `TLMatch(list, match, args, false)` on the sequence of a store: the
position of the first record the predicate accepts, `none` for NULL. -/
def TLMatch {α : Type} (p : α → Bool) : List α → Option Nat
  | [] => none
  | x :: xs => if p x then some 0 else (TLMatch p xs).map (fun i => i + 1)

/-- `ISBNMatch`: `strcmp(record->ISBN, ISBN) == 0`; `ISBN` is the memory from
the address passed on. -/
def ISBNMatch (ISBN : List Nat) (record : BookRecord) : Bool :=
  streq record.atISBN ISBN

/-- `AccountIDMatch`. -/
def AccountIDMatch (id : Nat) (record : AccountRecord) : Bool :=
  record.id == id

/-- The record `sys->session->host_ref` points at; `none` when the session is
NULL or the pointer is not a record of the store. -/
def host (sys : LibrarySystem) : Option AccountRecord :=
  match sys.session with
  | none => none
  | some s => sys.database.AccountRecords[s.host_ref]?

/-! ## Borrowing (libsys.c, lines 837-872) -/

/-- The record `SvrBorrow` builds (lines 859-864): zeroed, then
`strcpy(record.ISBN, book->ISBN)`, then the loan days, the borrower, the
borrow time, and the unreturned mark in the year of the return time. -/
def newBorrowRecord (book : BookRecord) (user : AccountRecord) (loan_time : Int)
    (now : Timestamp) : BorrowRecord :=
  let record := decodeBorrow (strcpy (zeros sizeofBorrow) 0 book.atISBN)
  { record with
    loan_time := (loan_time % 2 ^ 32).toNat
    borrower_id := user.id
    tm_borrow := now
    tm_return := { record.tm_return with year := -1 } }

/-- One pass of the loop body of `SvrBorrow` (lines 847-869): `ISBN` is the
line read for the ISBN, `loan_time` is `atoi` of the line read for the days,
`now` is what `GetTimestamp` delivers. -/
def SvrBorrowBody (sys : LibrarySystem) (user : AccountRecord) (ISBN : List Nat)
    (loan_time : Int) (now : Timestamp) : Msg × LibrarySystem :=
  let db := sys.database
  match TLMatch (ISBNMatch ISBN) db.BookRecords with
  | none => (Msg.bookMissing, sys)
  | some i =>
    match db.BookRecords[i]? with
    | none => (Msg.bookMissing, sys)
    | some book =>
      if book.stock = 0 then (Msg.noStock, sys)
      else if loan_time ≤ 0 then (Msg.badLoanDays, sys)
      else
        (Msg.borrowDone,
          { sys with
            database :=
              { db with
                header :=
                  { db.header with
                    borrow_rec_num := (db.header.borrow_rec_num + 1) % 2 ^ 32 }
                BorrowRecords := db.BorrowRecords ++ [newBorrowRecord book user loan_time now]
                BookRecords := db.BookRecords.set i { book with stock := book.stock - 1 } } })

/-- `SvrBorrow` for one request (the user declines to continue): the two
gates at entry, then the loop body once. -/
def SvrBorrow (sys : LibrarySystem) (ISBN : List Nat) (loan_time : Int)
    (now : Timestamp) : Option (Msg × LibrarySystem) :=
  match host sys with
  | none => none
  | some user =>
    if !CheckAccess user.group Borrow then some (Msg.borrowNotOpen, sys)
    else if user.amount < 0 then some (Msg.borrowClosedForDebt, sys)
    else some (SvrBorrowBody sys user ISBN loan_time now)

/-! ## Time (libsys.c, lines 244-290) and the C environment -/

/-- What the model takes from outside the program.
`mktime` is the C library's conversion of a broken-down local time to seconds
since the epoch.  `subFee amount n` is the value the statement
`borrower->amount -= n * 0.3 * 100` leaves in the `int32_t` field, for `n` the
`unsigned` value of `days - loan_time`: a `double` computation followed by a
conversion back to `int32_t`. -/
structure Env where
  mktime : Timestamp → Int
  subFee : Int → Nat → Int

/-- `GetDuration(begin, end)`: `difftime(mktime(end), mktime(begin))`, in
seconds (an integer-valued `double`). -/
def GetDuration (env : Env) (begin_ end_ : Timestamp) : Int :=
  env.mktime end_ - env.mktime begin_

/-- The conversion of an `int` to `unsigned int`. -/
def toUInt32 (x : Int) : Nat :=
  (x % 2 ^ 32).toNat

/-- The wrap of an integer into `int32_t` (two's complement). -/
def toInt32 (x : Int) : Int :=
  (x + 2 ^ 31) % 2 ^ 32 - 2 ^ 31

/-! ## Returning (libsys.c, lines 959-1040) -/

/-- The test both loops of `SvrUserBorrowView` apply to a borrow record: it is
the caller's and carries the unreturned mark. -/
def isActiveOf (id : Nat) (record : BorrowRecord) : Bool :=
  record.borrower_id == id && record.tm_return.year == -1

/-- The listing loop (lines 964-978): the final value of `index`, the number
of the caller's unreturned records.  Each listed record's book is looked up
and dereferenced for printing, so a record whose ISBN matches no book gives no
result. -/
def listActive (books : List BookRecord) (id : Nat) : List BorrowRecord → Option Nat
  | [] => some 0
  | r :: rs =>
    if isActiveOf id r then
      match TLMatch (ISBNMatch r.atISBN) books with
      | none => none
      | some _ => (listActive books id rs).map (fun n => n + 1)
    else listActive books id rs

/-- The selection loop (lines 995-1009): the position of the record at which
`++index == return_id`, `none` when the loop ends with `target == NULL`. -/
def selectActive (id : Nat) (return_id : Int) : Int → List BorrowRecord → Option Nat
  | _, [] => none
  | index, r :: rs =>
    if isActiveOf id r then
      if index + 1 = return_id then some 0
      else (selectActive id return_id (index + 1) rs).map (fun n => n + 1)
    else (selectActive id return_id index rs).map (fun n => n + 1)

/-- Option `[1]` of `SvrUserBorrowView` (lines 987-1028) after the listing of
the same pass: `return_id` is `atoi` of the line read, `now` is what
`GetTimestamp` delivers.  With `target == NULL` the call fails at
`GetTimestamp(&target->tm_return)` at the latest; `borrower` is dereferenced
in the fee branch only, `book` always. -/
def SvrReturn (env : Env) (sys : LibrarySystem) (return_id : Int) (now : Timestamp) :
    Option (Msg × LibrarySystem) :=
  let db := sys.database
  match host sys with
  | none => none
  | some user =>
    match listActive db.BookRecords user.id db.BorrowRecords with
    | none => none
    | some index =>
      if return_id < 0 ∨ return_id > (index : Int) then some (Msg.returnNoSuchIndex, sys)
      else
        match selectActive user.id return_id 0 db.BorrowRecords with
        | none => none
        | some t =>
          match db.BorrowRecords[t]? with
          | none => none
          | some target =>
            let borrows := db.BorrowRecords.set t { target with tm_return := now }
            let diff := GetDuration env now target.tm_borrow
            let days := Int.tdiv diff 86400
            match TLMatch (ISBNMatch target.atISBN) db.BookRecords with
            | none => none
            | some k =>
              match db.BookRecords[k]? with
              | none => none
              | some book =>
                let books := db.BookRecords.set k { book with stock := (book.stock + 1) % 2 ^ 64 }
                if toUInt32 days > target.loan_time then
                  match TLMatch (AccountIDMatch target.borrower_id) db.AccountRecords with
                  | none => none
                  | some b =>
                    match db.AccountRecords[b]? with
                    | none => none
                    | some borrower =>
                      let amount :=
                        env.subFee borrower.amount (toUInt32 (days - target.loan_time))
                      some (if amount < 0 then Msg.returnDoneLateInDebt else Msg.returnDoneLate,
                        { sys with
                          database :=
                            { db with
                              BorrowRecords := borrows
                              AccountRecords :=
                                db.AccountRecords.set b { borrower with amount := amount }
                              BookRecords := books } })
                else
                  some (Msg.returnDone,
                    { sys with
                      database := { db with BorrowRecords := borrows, BookRecords := books } })

/-! ## Accounts (libsys.c, lines 432-444 and 556-704) -/

/-- `GetBorrowNum`: the number of unreturned records of the session's account,
`0` without a session. -/
def GetBorrowNum (sys : LibrarySystem) : Option Nat :=
  match sys.session with
  | none => some 0
  | some s =>
    match sys.database.AccountRecords[s.host_ref]? with
    | none => none
    | some user => some (sys.database.BorrowRecords.countP (isActiveOf user.id))

/-- `TLFind(list, data, true)` on the sequence of a store: the position of the
first record whose byte image equals that of `data`. -/
def TLFind {α : Type} [DecidableEq α] (data : α) (records : List α) : Option Nat :=
  TLMatch (fun r => decide (r = data)) records

/-- `SvrCancelAccount`.  The `uint32_t` count is decremented: 0 wraps to
`2 ^ 32 - 1`. -/
def SvrCancelAccount (sys : LibrarySystem) : Option (Msg × LibrarySystem) :=
  let db := sys.database
  match host sys, GetBorrowNum sys with
  | some user, some n =>
    if user.id = 1 then some (Msg.cancelBuiltinAdmin, sys)
    else if n > 0 then some (Msg.cancelHasBorrows, sys)
    else if user.amount < 0 then some (Msg.cancelInDebt, sys)
    else
      match TLFind user db.AccountRecords with
      | none => some (Msg.cancelUnknownError, sys)
      | some j =>
        some (Msg.cancelDone,
          { database :=
              { db with
                header :=
                  { db.header with
                    account_rec_num :=
                      if db.header.account_rec_num = 0 then 2 ^ 32 - 1
                      else db.header.account_rec_num - 1 }
                AccountRecords := db.AccountRecords.eraseIdx j }
            session := none })
  | _, _ => none

/-- `SvrRecharge`: `amount` is `atoi` of the line read. -/
def SvrRecharge (sys : LibrarySystem) (amount : Int) : Option (Msg × LibrarySystem) :=
  match sys.session, host sys with
  | some s, some user =>
    if amount > 0 then
      some (Msg.rechargeDone,
        { sys with
          database :=
            { sys.database with
              AccountRecords :=
                sys.database.AccountRecords.set s.host_ref
                  { user with amount := toInt32 (user.amount + toInt32 (amount * 100)) } } })
    else some (Msg.rechargeInvalid, sys)
  | _, _ => none

/-- Option `[4]` of `SvrAccountManage` (lines 664-693), entered through the
gate of lines 593-596: `sid` is `atoi` of the line read for the user ID.
After a successful cancellation the saved session is put back; its pointer is
the position of the administrator's record in the shortened sequence.  When
the erased node is the administrator's own (a byte-identical twin in front of
the target) the pointer is left at an unlinked node, which the sequence model
does not represent: `none`. -/
def SvrAccountManageCancel (sys : LibrarySystem) (sid : Int) : Option (Msg × LibrarySystem) :=
  match sys.session, host sys with
  | some s, some admin =>
    if admin.group ≠ UserGroup.Admin then some (Msg.manageNotOpen, sys)
    else
      match TLMatch (AccountIDMatch (toUInt32 sid)) sys.database.AccountRecords with
      | none => some (Msg.manageNoSuchAccount, sys)
      | some t =>
        if t = s.host_ref then some (Msg.manageIsCurrent, sys)
        else
          match SvrCancelAccount { sys with session := some { s with host_ref := t } } with
          | none => none
          | some (msg, sys1) =>
            match sys1.session with
            | some _ => some (msg, sys1)
            | none =>
              match sys.database.AccountRecords[t]? with
              | none => none
              | some target =>
                match TLFind target sys.database.AccountRecords with
                | none => none
                | some j =>
                  if j = s.host_ref then none
                  else
                    some (msg,
                      { sys1 with
                        session :=
                          some { s with
                            host_ref := if j < s.host_ref then s.host_ref - 1 else s.host_ref } })
  | _, _ => none

/-- Consecutive calls of `SvrBorrow` for the same ISBN, one per entry of the
list (loan days and clock reading); the messages are collected in order. -/
def SvrBorrowSeq (sys : LibrarySystem) (ISBN : List Nat) :
    List (Int × Timestamp) → Option (List Msg × LibrarySystem)
  | [] => some ([], sys)
  | (loan_time, now) :: rest =>
    match SvrBorrow sys ISBN loan_time now with
    | none => none
    | some (m, sys1) =>
      match SvrBorrowSeq sys1 ISBN rest with
      | none => none
      | some (ms, sys2) => some (m :: ms, sys2)

/-! ## The file (libsys.c, lines 127-134 and 307-379)

A file is the list of its bytes.  `fwrite` copies the image of a record out
and `fread` copies it in. -/

/-- The image of the header (24 bytes). -/
def encodeHeader (hd : LibraryDBInfo) : List Nat :=
  putU 2 hd.account_rec_size ++ (putU 2 hd.book_rec_size ++ (putU 2 hd.borrow_rec_size ++
    (putU 2 hd.unused_1 ++ (putU 4 hd.account_rec_num ++ (putU 4 hd.book_rec_num ++
      (putU 4 hd.borrow_rec_num ++ putU 4 hd.unused_2))))))

/-- The header an image holds. -/
def decodeHeader (bs : List Nat) : LibraryDBInfo :=
  { account_rec_size := getU (field bs 0 2)
    book_rec_size := getU (field bs 2 2)
    borrow_rec_size := getU (field bs 4 2)
    unused_1 := getU (field bs 6 2)
    account_rec_num := getU (field bs 8 4)
    book_rec_num := getU (field bs 12 4)
    borrow_rec_num := getU (field bs 16 4)
    unused_2 := getU (field bs 20 4) }

/-- One of the three loops of `ExportLibraryDB`: the images of the records of
a store, head first. -/
def writeRecords {α : Type} (encode : α → List Nat) : List α → List Nat
  | [] => []
  | r :: rs => encode r ++ writeRecords encode rs

/-- `ExportLibraryDB`: the bytes written to the file. -/
def ExportLibraryDB (db : LibraryDB) : List Nat :=
  encodeHeader db.header ++ (writeRecords encodeAccount db.AccountRecords ++
    (writeRecords encodeBook db.BookRecords ++ writeRecords encodeBorrow db.BorrowRecords))

/-- `fread(buf, size, 1, fp)` into a buffer of `cap` bytes: the bytes read
overwrite the start of the buffer, the rest keeps what it held, and the file
position moves on.  (With `size > cap` the C call overruns the buffer; the
model keeps `cap` bytes.) -/
def fread (cap : Nat) (buf : List Nat) (size : Nat) (stream : List Nat) :
    List Nat × List Nat :=
  (((stream.take size) ++ buf.drop (stream.take size).length).take cap, stream.drop size)

/-- One of the three loops of `OpenLibraryDB`: `count` times, `size` bytes are
read into the local record, which is then appended to the store.  `buf` is
what the local record holds before the first read. -/
def readRecords (cap size : Nat) : Nat → List Nat → List Nat → List (List Nat) × List Nat
  | 0, _, stream => ([], stream)
  | n + 1, buf, stream =>
    let r := fread cap buf size stream
    let rest := readRecords cap size n r.1 r.2
    (r.1 :: rest.1, rest.2)

/-- `hash`: the running value is a `uint32_t`, the characters are `char`
(signed). -/
def hash (str : List Nat) : Nat :=
  ((cstr str).foldl
    (fun acc c => toUInt32 ((acc : Int) + (acc : Int) * 32 + (if c < 128 then (c : Int) else (c : Int) - 256)))
    5381) % 2 ^ 31

/-- The bytes of the string literal `"admin"`. -/
def adminName : List Nat := [97, 100, 109, 105, 110, 0]

/-- `OpenLibraryDB`.  `file` is the content of the file at `path`, `none` when
there is no such file; `now` is what `GetTimestamp` delivers and `junk` what
the three local records hold before the first read. -/
def OpenLibraryDB (now : Timestamp) (junk : List Nat) (file : Option (List Nat)) : LibraryDB :=
  match file with
  | none =>
    { header :=
        { account_rec_size := sizeofAccount, book_rec_size := sizeofBook,
          borrow_rec_size := sizeofBorrow, unused_1 := 0, account_rec_num := 1,
          book_rec_num := 0, borrow_rec_num := 0, unused_2 := 0 }
      AccountRecords :=
        let admin := decodeAccount (strcpy (strcpy (zeros sizeofAccount) 4 adminName) 20 adminName)
        [{ admin with
           group := UserGroup.Admin, id := 1, amount := 0, hashkey := hash admin.atAccount,
           tm_register := now }]
      BookRecords := []
      BorrowRecords := [] }
  | some bytes =>
    let h := fread sizeofHeader (zeros sizeofHeader) sizeofHeader bytes
    let hd := decodeHeader h.1
    let accounts := readRecords sizeofAccount hd.account_rec_size hd.account_rec_num junk h.2
    let books := readRecords sizeofBook hd.book_rec_size hd.book_rec_num junk accounts.2
    let borrows := readRecords sizeofBorrow hd.borrow_rec_size hd.borrow_rec_num junk books.2
    { header :=
        { hd with
          account_rec_size := sizeofAccount, book_rec_size := sizeofBook,
          borrow_rec_size := sizeofBorrow }
      AccountRecords := accounts.1.map decodeAccount
      BookRecords := books.1.map decodeBook
      BorrowRecords := borrows.1.map decodeBorrow }

/-- The values a `Timestamp` can hold: `int16_t` year, `int8_t` elsewhere. -/
def Timestamp.InRange (t : Timestamp) : Prop :=
  (-(2 : Int) ^ 15 ≤ t.year ∧ t.year < 2 ^ 15) ∧ (-128 ≤ t.month ∧ t.month < 128) ∧
  (-128 ≤ t.day ∧ t.day < 128) ∧ (-128 ≤ t.weekday ∧ t.weekday < 128) ∧
  (-128 ≤ t.hour ∧ t.hour < 128) ∧ (-128 ≤ t.min ∧ t.min < 128) ∧
  (-128 ≤ t.sec ∧ t.sec < 128)

/-- The values an `AccountRecord` can hold. -/
def AccountRecord.InRange (r : AccountRecord) : Prop :=
  r.account.length = 16 ∧ r.password.length = 16 ∧ r.hashkey < 2 ^ 32 ∧ r.id < 2 ^ 32 ∧
  (-(2 : Int) ^ 31 ≤ r.amount ∧ r.amount < 2 ^ 31) ∧ r.tm_register.InRange

/-- The values a `BookRecord` can hold. -/
def BookRecord.InRange (r : BookRecord) : Prop :=
  r.stock < 2 ^ 64 ∧ r.ISBN.length = 24 ∧ r.author.length = 32 ∧ r.name.length = 64 ∧
  r.tm_introduce.InRange

/-- The values a `BorrowRecord` can hold. -/
def BorrowRecord.InRange (r : BorrowRecord) : Prop :=
  r.ISBN.length = 24 ∧ r.loan_time < 2 ^ 32 ∧ r.borrower_id < 2 ^ 32 ∧
  r.tm_borrow.InRange ∧ r.tm_return.InRange

instance (t : Timestamp) : Decidable t.InRange := by
  unfold Timestamp.InRange
  infer_instance

instance (r : AccountRecord) : Decidable r.InRange := by
  unfold AccountRecord.InRange
  infer_instance

instance (r : BookRecord) : Decidable r.InRange := by
  unfold BookRecord.InRange
  infer_instance

instance (r : BorrowRecord) : Decidable r.InRange := by
  unfold BorrowRecord.InRange
  infer_instance

/-- An in-memory ledger: every field holds a value of its C type, the header's
sizes are the layout sizes (as `OpenLibraryDB` sets them) and its counts are
the lengths of the stores (as every operation keeps them). -/
structure LibraryDB.InMemory (db : LibraryDB) : Prop where
  account_size : db.header.account_rec_size = sizeofAccount
  book_size : db.header.book_rec_size = sizeofBook
  borrow_size : db.header.borrow_rec_size = sizeofBorrow
  unused_1 : db.header.unused_1 < 2 ^ 16
  unused_2 : db.header.unused_2 < 2 ^ 32
  account_num : db.header.account_rec_num = db.AccountRecords.length
  book_num : db.header.book_rec_num = db.BookRecords.length
  borrow_num : db.header.borrow_rec_num = db.BorrowRecords.length
  account_lt : db.AccountRecords.length < 2 ^ 32
  book_lt : db.BookRecords.length < 2 ^ 32
  borrow_lt : db.BorrowRecords.length < 2 ^ 32
  accounts : ∀ r ∈ db.AccountRecords, r.InRange
  books : ∀ r ∈ db.BookRecords, r.InRange
  borrows : ∀ r ∈ db.BorrowRecords, r.InRange

/-! ## Login, registration, new books, the record list, and the reachable
states (libsys.c, lines 390-430, 488-507, 874-915, 1042-1067) -/

/-- The zero `AccountRecord` (`= { }`). -/
def AccountRecord.zero : AccountRecord :=
  { group := UserGroup.User, account := zeros 16, password := zeros 16, hashkey := 0, id := 0,
    amount := 0, tm_register := Timestamp.zero }

/-- `AccountHashMatch`: the hash keys are equal and
`strcmp(record->account, info->account) == 0`. -/
def AccountHashMatch (info : AccountRecord) (record : AccountRecord) : Bool :=
  record.hashkey == info.hashkey && streq record.atAccount info.atAccount

/-- `ExclusiveLogin`: whether the login succeeded, and the system after it.
`info` is the zeroed local record after `strcpy(info.account, account)` and
the assignment of the hash key. -/
def ExclusiveLogin (sys : LibrarySystem) (account password : List Nat) (now : Timestamp) :
    Bool × LibrarySystem :=
  let info : AccountRecord :=
    { decodeAccount (strcpy (zeros sizeofAccount) 4 account) with hashkey := hash account }
  match TLMatch (AccountHashMatch info) sys.database.AccountRecords with
  | none => (false, sys)
  | some i =>
    match sys.database.AccountRecords[i]? with
    | none => (false, sys)
    | some user =>
      if streq user.atPassword password then
        (true, { sys with session := some { host_ref := i, tm_establish := now } })
      else (false, sys)

/-- `RegisterAccount`.  The local record is not initialised: `junk` is what it
holds on entry, of which the bytes of the two `char` fields behind the copied
strings survive.  `draw` is the value of `rand() * rand()`. -/
def RegisterAccount (sys : LibrarySystem) (junk : AccountRecord) (account password : List Nat)
    (draw : Nat) (now : Timestamp) : LibrarySystem :=
  let copied := decodeAccount (strcpy (strcpy (encodeAccount junk) 4 account) 20 password)
  let record : AccountRecord :=
    { copied with
      hashkey := hash account
      group := UserGroup.User
      id := draw % 2 ^ 32
      amount := 0
      tm_register := now }
  { sys with
    database :=
      { sys.database with
        header :=
          { sys.database.header with
            account_rec_num := (sys.database.header.account_rec_num + 1) % 2 ^ 32 }
        AccountRecords := sys.database.AccountRecords ++ [record] } }

/-- One pass of option `[2]` of `SvrLogin` (lines 491-507): the three lines
read, then the checks, then `RegisterAccount`. -/
def SvrRegister (sys : LibrarySystem) (junk : AccountRecord)
    (account password confirm : List Nat) (draw : Nat) (now : Timestamp) :
    Msg × LibrarySystem :=
  let record : AccountRecord :=
    { decodeAccount (strcpy (strcpy (encodeAccount junk) 4 account) 20 password) with
      hashkey := hash account }
  if !streq password confirm then (Msg.registerMismatch, sys)
  else
    match TLMatch (AccountHashMatch record) sys.database.AccountRecords with
    | some _ => (Msg.registerExists, sys)
    | none => (Msg.registerDone, RegisterAccount sys junk account password draw now)

/-- One pass of the loop body of `SvrNewBook` (lines 885-911): `number` is
`atoi` of the line read for the quantity.  When the book found differs in name
or author, the code calls `printf` with three `%s` and no argument (line 895):
that call has no defined result, `none`.  The new record is the zeroed local
record after the three `strcpy` calls in the order of the source: ISBN, name,
author. -/
def SvrNewBookBody (sys : LibrarySystem) (ISBN name author : List Nat) (number : Int)
    (now : Timestamp) : Option (Msg × LibrarySystem) :=
  let db := sys.database
  let found : Option (Nat × BookRecord) :=
    match TLMatch (ISBNMatch ISBN) db.BookRecords with
    | none => none
    | some i =>
      match db.BookRecords[i]? with
      | none => none
      | some book => some (i, book)
  match found with
  | some (i, book) =>
    if !streq book.atName name || !streq book.atAuthor author then none
    else if number ≤ 0 then some (Msg.newBookBadNumber, sys)
    else
      some (Msg.newBookRestocked,
        { sys with
          database :=
            { db with
              BookRecords :=
                db.BookRecords.set i
                  { book with stock := (book.stock + number.toNat) % 2 ^ 64 } } })
  | none =>
    if number ≤ 0 then some (Msg.newBookBadNumber, sys)
    else
      let record :=
        decodeBook (strcpy (strcpy (strcpy (zeros sizeofBook) 8 ISBN) 64 name) 32 author)
      some (Msg.newBookDone,
        { sys with
          database :=
            { db with
              header :=
                { db.header with book_rec_num := (db.header.book_rec_num + 1) % 2 ^ 32 }
              BookRecords :=
                db.BookRecords ++ [{ record with stock := number.toNat, tm_introduce := now }] } })

/-- `SvrNewBook` for one request: the two gates at entry, then the loop body
once. -/
def SvrNewBook (sys : LibrarySystem) (ISBN name author : List Nat) (number : Int)
    (now : Timestamp) : Option (Msg × LibrarySystem) :=
  match host sys with
  | none => none
  | some user =>
    if !RequireService user.group LibraryService then some (Msg.newBookNotOpen, sys)
    else if !CheckAccess user.group AddBook then some (Msg.newBookDenied, sys)
    else SvrNewBookBody sys ISBN name author number now

/-- The loop of `SvrBorrowRecords`: the number of lines printed.  Each line
dereferences the borrower and the book looked up for the record, so a record
whose borrower or book is not found gives no result. -/
def listRecords (db : LibraryDB) : List BorrowRecord → Option Nat
  | [] => some 0
  | r :: rs =>
    match TLMatch (AccountIDMatch r.borrower_id) db.AccountRecords,
        TLMatch (ISBNMatch r.atISBN) db.BookRecords with
    | some _, some _ => (listRecords db rs).map (fun n => n + 1)
    | _, _ => none

/-- `SvrBorrowRecords`. -/
def SvrBorrowRecords (sys : LibrarySystem) : Option Nat :=
  listRecords sys.database sys.database.BorrowRecords

/-- The states the program reaches from a first boot (no file yet) by logging
in, registering, cancelling an account (one's own or, as administrator,
another's), recharging, adding books, borrowing and returning. -/
inductive Reachable (env : Env) : LibrarySystem → Prop
  | boot (now : Timestamp) (junk : List Nat) :
    Reachable env { database := OpenLibraryDB now junk none, session := none }
  | login (sys : LibrarySystem) (account password : List Nat) (now : Timestamp) :
    Reachable env sys → Reachable env (ExclusiveLogin sys account password now).2
  | register (sys : LibrarySystem) (junk : AccountRecord) (account password confirm : List Nat)
      (draw : Nat) (now : Timestamp) :
    Reachable env sys → Reachable env (SvrRegister sys junk account password confirm draw now).2
  | cancel (sys sys1 : LibrarySystem) (msg : Msg) :
    Reachable env sys → SvrCancelAccount sys = some (msg, sys1) → Reachable env sys1
  | manageCancel (sys sys1 : LibrarySystem) (sid : Int) (msg : Msg) :
    Reachable env sys → SvrAccountManageCancel sys sid = some (msg, sys1) → Reachable env sys1
  | recharge (sys sys1 : LibrarySystem) (amount : Int) (msg : Msg) :
    Reachable env sys → SvrRecharge sys amount = some (msg, sys1) → Reachable env sys1
  | newBook (sys sys1 : LibrarySystem) (ISBN name author : List Nat) (number : Int)
      (now : Timestamp) (msg : Msg) :
    Reachable env sys → SvrNewBook sys ISBN name author number now = some (msg, sys1) →
    Reachable env sys1
  | borrow (sys sys1 : LibrarySystem) (ISBN : List Nat) (loan_time : Int) (now : Timestamp)
      (msg : Msg) :
    Reachable env sys → SvrBorrow sys ISBN loan_time now = some (msg, sys1) → Reachable env sys1
  | giveBack (sys sys1 : LibrarySystem) (return_id : Int) (now : Timestamp) (msg : Msg) :
    Reachable env sys → SvrReturn env sys return_id now = some (msg, sys1) → Reachable env sys1

/-- The header's three counts agree with the lengths of the stores, as far
as a `uint32_t` can tell. -/
def Counted (db : LibraryDB) : Prop :=
  db.header.account_rec_num = db.AccountRecords.length % 2 ^ 32 ∧
  db.header.book_rec_num = db.BookRecords.length % 2 ^ 32 ∧
  db.header.borrow_rec_num = db.BorrowRecords.length % 2 ^ 32

/-- The twelve operation flags of `enum Permission`. -/
def opFlags : List Nat :=
  [Borrow, Return, Query, Register, Login, CancelAccount, AddBook, ModifyBook, Recharge, Deduct,
    NewRecord, WithdrawRecord]

/-! ## Linked list on a heap (libsys.c, lines 14-22 and 157-242)

The generic store as the C code has it: nodes with `prev` and `next` pointers
and a list header with `head` and `tail`.  All stores live in one heap, the
list of the nodes allocated so far; a node pointer is a position in it and
`none` is NULL.  The data block a node owns is kept inside the node, and two
blocks are compared as values, which is what `memcmp` over `node_size` bytes
decides.  Nodes are never freed by `TLErase`, so a heap only grows. -/

namespace Linked

/-- `TListNode`. -/
structure TListNode (α : Type) where
  prev : Option Nat
  next : Option Nat
  data : α
deriving DecidableEq, Repr

/-- `TList` (the `node_size` field is the size of `α`). -/
structure TList where
  head : Option Nat
  tail : Option Nat
deriving DecidableEq, Repr

/-- The nodes allocated so far. -/
abbrev Heap (α : Type) := List (TListNode α)

/-- `TLAppend(list, data)` with `data != NULL`: allocates a node holding a copy
of `data` and links it behind the tail.  Returns the new heap, the new list
header and the new node. -/
def TLAppend {α : Type} (h : Heap α) (list : TList) (data : α) :
    Option (Heap α × TList × Nat) :=
  let node := h.length
  match list.head with
  | some _ =>
    match list.tail with
    | none => none
    | some t =>
      match h[t]? with
      | none => none
      | some tn =>
        some (h.set t { tn with next := some node }
            ++ [{ prev := some t, next := none, data := data }],
          { list with tail := some node }, node)
  | none =>
    some (h ++ [{ prev := none, next := none, data := data }],
      { head := some node, tail := some node }, node)

/-- The first half of `TLErase` (lines 201-207): `none` is a failed
dereference, `some none` is `return false`. -/
def eraseFront {α : Type} (h : Heap α) (list : TList) (hd a : Nat) (n : TListNode α) :
    Option (Option (Heap α × TList)) :=
  match n.prev with
  | some p =>
    match h[p]? with
    | none => none
    | some pn => some (some (h.set p { pn with next := n.next }, list))
  | none =>
    if a ≠ hd then some none
    else
      match h[hd]? with
      | none => none
      | some hn => some (some (h, { list with head := hn.next }))

/-- The second half of `TLErase` (lines 208-215), on the heap and header the
first half left. -/
def eraseBack {α : Type} (h1 : Heap α) (l1 : TList) (a : Nat) :
    Option (Heap α × TList × Bool) :=
  match h1[a]? with
  | none => none
  | some n =>
    match n.next with
    | some q =>
      match h1[q]? with
      | none => none
      | some qn => some (h1.set q { qn with prev := n.prev }, l1, true)
    | none =>
      if some a ≠ l1.tail then some (h1, l1, false)
      else
        match l1.tail with
        | none => some (h1, l1, true)
        | some t =>
          match h1[t]? with
          | none => none
          | some tn => some (h1, { l1 with tail := tn.prev }, true)

/-- `TLErase(list, node)`. -/
def TLErase {α : Type} (h : Heap α) (list : TList) (node : Option Nat) :
    Option (Heap α × TList × Bool) :=
  match list.head, node with
  | none, _ => some (h, list, false)
  | some _, none => some (h, list, false)
  | some hd, some a =>
    match h[a]? with
    | none => none
    | some n =>
      match eraseFront h list hd a n with
      | none => none
      | some none => some (h, list, false)
      | some (some (h1, l1)) => eraseBack h1 l1 a

/-- The loop shared by `TLFind` and `TLMatch`: follow `next` from `node` until
the test accepts a node's data.  The C loop has no bound; `fuel` counts the
nodes still to visit, and a walk longer than the heap has nodes revisits a
node and never ends, so running out of fuel (`none`) is a run that does not
return. -/
def walk {α : Type} (h : Heap α) (p : α → Bool) : Nat → Option Nat → Option (Option Nat)
  | _, none => some none
  | 0, some _ => none
  | fuel + 1, some a =>
    match h[a]? with
    | none => none
    | some n => if p n.data then some (some a) else walk h p fuel n.next

/-- `TLMatch(list, match, args, true)`. -/
def TLMatch {α : Type} (h : Heap α) (list : TList) (p : α → Bool) : Option (Option Nat) :=
  match list.head with
  | none => some none
  | some hd => walk h p h.length (some hd)

/-- `TLFind(list, data, true)`. -/
def TLFind {α : Type} [DecidableEq α] (h : Heap α) (list : TList) (data : α) :
    Option (Option Nat) :=
  TLMatch h list (fun d => decide (d = data))

/-- `append(v)` followed by `find(v)`. -/
def appendFind {α : Type} [DecidableEq α] (h : Heap α) (list : TList) (v : α) :
    Option (Option Nat) :=
  match TLAppend h list v with
  | none => none
  | some (h1, l1, _) => TLFind h1 l1 v

/-- `append(v)`, then `erase` of the node just appended, then `find(v)`. -/
def appendEraseFind {α : Type} [DecidableEq α] (h : Heap α) (list : TList) (v : α) :
    Option (Bool × Option Nat) :=
  match TLAppend h list v with
  | none => none
  | some (h1, l1, a) =>
    match TLErase h1 l1 (some a) with
    | none => none
    | some (h2, l2, ok) =>
      match TLFind h2 l2 v with
      | none => none
      | some r => some (ok, r)

/-- Where `next` of a node points when `rest` follows it in a chain that ends
at `nx`. -/
def nextOf (rest : List Nat) (nx : Option Nat) : Option Nat :=
  match rest with
  | [] => nx
  | q :: _ => some q

/-- Where `prev` of the node after `xs` points in a chain entered from `pv`. -/
def lastOf (pv : Option Nat) (xs : List Nat) : Option Nat :=
  match xs.getLast? with
  | none => pv
  | some x => some x

/-- `Seg h pv ps nx`: the nodes `ps` are linked in this order, the first one's
`prev` is `pv` and the last one's `next` is `nx`. -/
def Seg {α : Type} (h : Heap α) : Option Nat → List Nat → Option Nat → Prop
  | _, [], _ => True
  | pv, p :: rest, nx =>
    (∃ n, h[p]? = some n ∧ n.prev = pv ∧ n.next = nextOf rest nx) ∧ Seg h (some p) rest nx

/-- `IsList h list ps`: in heap `h` the header `list` denotes the store whose
nodes are `ps`, head first. -/
structure IsList {α : Type} (h : Heap α) (list : TList) (ps : List Nat) : Prop where
  nodup : ps.Nodup
  head : list.head = ps.head?
  tail : list.tail = ps.getLast?
  seg : Seg h none ps none

/-- The data of the node at `p`. -/
def dataAt {α : Type} (h : Heap α) (p : Nat) : Option α :=
  (h[p]?).map TListNode.data

/-- The records of the store with nodes `ps`, head first. -/
def contents {α : Type} (h : Heap α) (ps : List Nat) : List α :=
  ps.filterMap (dataAt h)

/-- The node the walk of `TLFind` / `TLMatch` stops at, on the sequence of
nodes of a store. -/
def firstNode {α : Type} (h : Heap α) (p : α → Bool) (ps : List Nat) : Option Nat :=
  ps.find? (fun a => ((dataAt h a).map p).getD false)

/-- The write `o->next = v` when `o` is not NULL. -/
def setNext {α : Type} (h : Heap α) (o : Option Nat) (v : Option Nat) : Heap α :=
  match o with
  | none => h
  | some p =>
    match h[p]? with
    | none => h
    | some pn => h.set p { pn with next := v }

/-- The write `o->prev = v` when `o` is not NULL. -/
def setPrev {α : Type} (h : Heap α) (o : Option Nat) (v : Option Nat) : Heap α :=
  match o with
  | none => h
  | some p =>
    match h[p]? with
    | none => h
    | some pn => h.set p { pn with prev := v }

/-- A heap with two stores of numbers: store A is the single node 0, store B
is the nodes 1, 2, 3. -/
def twoStores : Heap Nat :=
  [ { prev := none, next := none, data := 10 },
    { prev := none, next := some 2, data := 21 },
    { prev := some 1, next := some 3, data := 22 },
    { prev := some 2, next := none, data := 23 } ]

/-- The header of store A in `twoStores`. -/
def storeA : TList := { head := some 0, tail := some 0 }

/-- The header of store B in `twoStores`. -/
def storeB : TList := { head := some 1, tail := some 3 }

end Linked

/-! ## Sample data

A small ledger on which the theorems are instantiated: the built-in
administrator, the regular user `alice` (identifier 7) and one book `A1`. -/

/-- A clock reading in May 2024. -/
def demoTime (day hour : Int) : Timestamp :=
  { year := 2024, month := 5, day := day, weekday := 1, hour := hour, min := 0, sec := 0 }

/-- The seeded administrator. -/
def demoAdmin : AccountRecord :=
  { group := UserGroup.Admin, account := strcpy (zeros 16) 0 [97, 100, 109, 105, 110],
    password := strcpy (zeros 16) 0 [97, 100, 109, 105, 110], hashkey := 0, id := 1, amount := 0,
    tm_register := demoTime 1 0 }

/-- The regular user `alice`, identifier 7, with the given balance. -/
def demoAlice (amount : Int) : AccountRecord :=
  { group := UserGroup.User, account := strcpy (zeros 16) 0 [97, 108, 105, 99, 101],
    password := strcpy (zeros 16) 0 [112, 119, 49], hashkey := 0, id := 7, amount := amount,
    tm_register := demoTime 1 0 }

/-- The book `A1` with the given stock. -/
def demoBook (stock : Nat) : BookRecord :=
  { stock := stock, ISBN := strcpy (zeros 24) 0 [65, 49], author := strcpy (zeros 32) 0 [88],
    name := strcpy (zeros 64) 0 [84], tm_introduce := demoTime 1 0 }

/-- A header with the layout sizes and the given counts. -/
def demoHeader (accounts books borrows : Nat) : LibraryDBInfo :=
  { account_rec_size := 56, book_rec_size := 136, borrow_rec_size := 48, unused_1 := 0,
    account_rec_num := accounts, book_rec_num := books, borrow_rec_num := borrows, unused_2 := 0 }

/-- The sample system: both accounts, the book, the given borrow records, and
a session whose host is the account at `host_ref`. -/
def demoSys (amount : Int) (stock : Nat) (borrows : List BorrowRecord) (host_ref : Nat) :
    LibrarySystem :=
  { database :=
      { header := demoHeader 2 1 borrows.length
        AccountRecords := [demoAdmin, demoAlice amount]
        BookRecords := [demoBook stock]
        BorrowRecords := borrows }
    session := some { host_ref := host_ref, tm_establish := demoTime 2 0 } }

/-- A stand-in for `mktime` on the sample clock readings: seconds counted from
the start of the month. -/
def demoClock (t : Timestamp) : Int :=
  ((t.day * 24 + t.hour) * 60 + t.min) * 60 + t.sec

/-- A sample environment.  Its `subFee` is a stand-in that subtracts 30 minor
units per day in integers and wraps to `int32_t`; the code computes in
`double` and converts, which gives other values where the product is not
exact or does not fit.  No theorem takes the fee branch under it. -/
def demoEnv : Env :=
  { mktime := demoClock, subFee := fun amount n => toInt32 (amount - 30 * (n : Int)) }

/-- The record `alice` holds after borrowing `A1` for three days on 3 May. -/
def demoBorrow : BorrowRecord :=
  newBorrowRecord (demoBook 2) (demoAlice 0) 3 (demoTime 3 0)

/-- A manager account, identifier 9, with the given balance. -/
def demoManager (amount : Int) : AccountRecord :=
  { group := UserGroup.Manager, account := strcpy (zeros 16) 0 [109, 103, 114],
    password := strcpy (zeros 16) 0 [112, 119, 50], hashkey := 0, id := 9, amount := amount,
    tm_register := demoTime 1 0 }

/-- A system whose accounts are the administrator and the manager, the session
hosted by the account at `host_ref`. -/
def demoManagerSys (amount : Int) (host_ref : Nat) : LibrarySystem :=
  { database :=
      { header := demoHeader 2 1 0
        AccountRecords := [demoAdmin, demoManager amount]
        BookRecords := [demoBook 2]
        BorrowRecords := [] }
    session := some { host_ref := host_ref, tm_establish := demoTime 2 0 } }

/-- The sample ledger with one borrow record. -/
def demoDb : LibraryDB :=
  (demoSys 5 2 [demoBorrow] 1).database

/-- The sample ledger with the header's account size field cleared. -/
def demoDbSizeless : LibraryDB :=
  { demoDb with header := { demoDb.header with account_rec_size := 0 } }

/-- The system a step leaves: the one it returns, or the one it was given when
it has no result. -/
def afterStep (r : Option (Msg × LibrarySystem)) (sys : LibrarySystem) : LibrarySystem :=
  match r with
  | some p => p.2
  | none => sys

/-- A sample run, step by step.  First boot. -/
def run0 : LibrarySystem :=
  { database := OpenLibraryDB (demoTime 1 0) [] none, session := none }

/-- The administrator logs in (`admin` / `admin`). -/
def run1 : LibrarySystem :=
  (ExclusiveLogin run0 adminName adminName (demoTime 1 1)).2

/-- The administrator adds two copies of the book `A1`. -/
def run2 : LibrarySystem :=
  afterStep (SvrNewBook run1 [65, 49] [84] [88] 2 (demoTime 1 2)) run1

/-- The user `alice` registers; the random draw is 7. -/
def run3 : LibrarySystem :=
  (SvrRegister run2 AccountRecord.zero [97, 108, 105, 99, 101] [112, 119, 49] [112, 119, 49] 7
    (demoTime 2 0)).2

/-- The user `alice` logs in. -/
def run4 : LibrarySystem :=
  (ExclusiveLogin run3 [97, 108, 105, 99, 101] [112, 119, 49] (demoTime 3 0)).2

/-- She borrows `A1` for three days. -/
def run5 : LibrarySystem :=
  afterStep (SvrBorrow run4 [65, 49] 3 (demoTime 3 1)) run4

/-- She returns it the same day. -/
def run6 : LibrarySystem :=
  afterStep (SvrReturn demoEnv run5 1 (demoTime 3 9)) run5

/-- She cancels her account. -/
def run7 : LibrarySystem :=
  afterStep (SvrCancelAccount run6) run6

/-- Another run: after the first boot a user registers and the random draw
is 1. -/
def runDraw1 : LibrarySystem :=
  (SvrRegister run0 AccountRecord.zero [97, 108, 105, 99, 101] [112, 119, 49] [112, 119, 49] 1
    (demoTime 2 0)).2

/-- A 30-character ISBN, `0123456789ABCDEFGHIJKLMNOPQRST`: six characters more
than the `ISBN` field of a book record holds. -/
def longISBN : List Nat :=
  [48, 49, 50, 51, 52, 53, 54, 55, 56, 57, 65, 66, 67, 68, 69, 70, 71, 72, 73, 74, 75, 76, 77, 78,
    79, 80, 81, 82, 83, 84]

/-- The string `0123456789ABCDEFGHIJKLMNY`: the first 24 characters of
`longISBN` followed by the author `Y`. -/
def longKey : List Nat :=
  [48, 49, 50, 51, 52, 53, 54, 55, 56, 57, 65, 66, 67, 68, 69, 70, 71, 72, 73, 74, 75, 76, 77, 78,
    89]

/-- A third run.  After the first boot and the administrator's login, the
administrator adds two copies of a book with the ISBN `longISBN`, the name `T`
and the author `Y`. -/
def runLong2 : LibrarySystem :=
  afterStep (SvrNewBook run1 longISBN [84] [89] 2 (demoTime 1 2)) run1

/-- The user `alice` registers; the random draw is 7. -/
def runLong3 : LibrarySystem :=
  (SvrRegister runLong2 AccountRecord.zero [97, 108, 105, 99, 101] [112, 119, 49] [112, 119, 49]
    7 (demoTime 2 0)).2

/-- The user `alice` logs in. -/
def runLong4 : LibrarySystem :=
  (ExclusiveLogin runLong3 [97, 108, 105, 99, 101] [112, 119, 49] (demoTime 3 0)).2

/-- She borrows the book for three days, asking for it by `longKey`. -/
def runLong5 : LibrarySystem :=
  afterStep (SvrBorrow runLong4 longKey 3 (demoTime 3 1)) runLong4

/-! # Theorems -/

/-! ## Lookup in a sequence -/

theorem TLMatch_eq_none_iff {α : Type} (p : α → Bool) (l : List α) :
    TLMatch p l = none ↔ ∀ x ∈ l, p x = false := by
  induction l with
  | nil => simp [TLMatch]
  | cons x xs ih =>
    by_cases hx : p x = true
    · simp [TLMatch, hx]
    · simp [TLMatch, hx, ih]

theorem TLMatch_some_get {α : Type} (p : α → Bool) (l : List α) (i : Nat)
    (h : TLMatch p l = some i) :
    ∃ x, l[i]? = some x ∧ p x = true ∧ ∀ j, j < i → ∀ y, l[j]? = some y → p y = false := by
  induction l generalizing i with
  | nil => simp [TLMatch] at h
  | cons x xs ih =>
    by_cases hx : p x = true
    · simp [TLMatch, hx] at h
      subst h
      exact ⟨x, by simp, hx, by intro j hj; omega⟩
    · simp only [TLMatch, hx, Bool.false_eq_true, if_false, Option.map_eq_some'] at h
      obtain ⟨k, hk, rfl⟩ := h
      obtain ⟨y, hy, hpy, hmin⟩ := ih k hk
      refine ⟨y, by simpa using hy, hpy, ?_⟩
      intro j hj z hz
      cases j with
      | zero =>
        simp at hz
        subst hz
        simpa using hx
      | succ j =>
        simp at hz
        exact hmin j (by omega) z hz

theorem TLMatch_set_same {α : Type} (p : α → Bool) (l : List α) (i : Nat) (x y : α)
    (h : l[i]? = some x) (hp : p y = p x) : TLMatch p (l.set i y) = TLMatch p l := by
  induction l generalizing i with
  | nil => simp at h
  | cons z zs ih =>
    cases i with
    | zero =>
      simp at h
      subst h
      simp [TLMatch, hp]
    | succ i =>
      simp at h
      simp [TLMatch, ih i h]

/-! ## Borrow -/

/-- **C3.** `SvrBorrow` mutates nothing when a precondition fails: if the
caller's group lacks the `Borrow` permission, or the caller's balance is
negative, or no book carries the ISBN, or the book found has stock 0, or the
parsed day count is not positive, the call returns the system it was given
(borrow store, header, books, accounts and session alike) and reports a
refusal. -/
theorem SvrBorrow_refused_unchanged (sys : LibrarySystem) (user : AccountRecord)
    (ISBN : List Nat) (loan_time : Int) (now : Timestamp)
    (hhost : host sys = some user)
    (hfail : CheckAccess user.group Borrow = false ∨ user.amount < 0 ∨
      (∀ b ∈ sys.database.BookRecords, ISBNMatch ISBN b = false) ∨
      (∃ i book, TLMatch (ISBNMatch ISBN) sys.database.BookRecords = some i ∧
        sys.database.BookRecords[i]? = some book ∧ book.stock = 0) ∨
      loan_time ≤ 0) :
    ∃ msg, SvrBorrow sys ISBN loan_time now = some (msg, sys) ∧ msg ≠ Msg.borrowDone := by
  unfold SvrBorrow
  rw [hhost]
  simp only
  by_cases hperm : CheckAccess user.group Borrow = true
  swap
  · exact ⟨Msg.borrowNotOpen, by simp [hperm], by decide⟩
  by_cases hbal : user.amount < 0
  · exact ⟨Msg.borrowClosedForDebt, by simp [hperm, hbal], by decide⟩
  simp only [hperm, hbal, Bool.not_true, Bool.false_eq_true, if_false]
  unfold SvrBorrowBody
  simp only
  cases hm : TLMatch (ISBNMatch ISBN) sys.database.BookRecords with
  | none => exact ⟨Msg.bookMissing, rfl, by decide⟩
  | some i =>
    obtain ⟨book, hbook, hpb, -⟩ := TLMatch_some_get _ _ _ hm
    simp only [hbook]
    by_cases hstock : book.stock = 0
    · exact ⟨Msg.noStock, by simp [hstock], by decide⟩
    by_cases hdays : loan_time ≤ 0
    · exact ⟨Msg.badLoanDays, by simp [hstock, hdays], by decide⟩
    exfalso
    rcases hfail with h | h | h | h | h
    · simp [hperm] at h
    · exact hbal h
    · have := (TLMatch_eq_none_iff (ISBNMatch ISBN) sys.database.BookRecords).2 h
      simp [hm] at this
    · obtain ⟨i2, book2, h1, h2, h3⟩ := h
      rw [hm] at h1
      cases h1
      rw [hbook] at h2
      cases h2
      exact hstock h3
    · exact hdays h

/-- Witness for C3: `alice` asks for a book whose stock is 0. -/
theorem SvrBorrow_refused_unchanged_witness :
    ∃ msg, SvrBorrow (demoSys 0 0 [] 1) [65, 49] 3 (demoTime 3 0)
      = some (msg, demoSys 0 0 [] 1) ∧ msg ≠ Msg.borrowDone :=
  SvrBorrow_refused_unchanged (demoSys 0 0 [] 1) (demoAlice 0) [65, 49] 3 (demoTime 3 0) rfl
    (Or.inr (Or.inr (Or.inr (Or.inl ⟨0, demoBook 0, by decide, rfl, rfl⟩))))

theorem cstr_append_zero (xs rest : List Nat) (h : ∀ a ∈ xs, a ≠ 0) :
    cstr (xs ++ 0 :: rest) = xs := by
  unfold cstr
  rw [List.takeWhile_append_of_pos (by intro a ha; simpa using h a ha)]
  simp

theorem cstr_nonzero (buf : List Nat) : ∀ a ∈ cstr buf, a ≠ 0 := by
  intro a ha
  have := List.mem_takeWhile_imp ha
  simpa using this

/-- A string shorter than a zeroed object, copied to its start, is followed
by zeros. -/
theorem strcpy_zeros (n : Nat) (src : List Nat) (h : (cstr src).length < n) :
    strcpy (zeros n) 0 src = cstr src ++ zeros (n - (cstr src).length) := by
  unfold strcpy zeros
  have h2 : n - (cstr src).length = (n - (cstr src).length - 1) + 1 := by omega
  rw [h2, List.replicate_succ]
  simp only [List.take_zero, List.nil_append, List.length_replicate, List.drop_replicate,
    List.singleton_append, zero_add]
  have h3 : n - ((cstr src).length + 1) = n - (cstr src).length - 1 := by omega
  rw [h3, List.take_of_length_le]
  · simp
  · simp
    omega

/-- The `ISBN` field `SvrBorrow` stores for a book whose ISBN string ends
inside the field, and the return time it stores. -/
theorem newBorrowRecord_fields (book : BookRecord) (user : AccountRecord) (loan_time : Int)
    (now : Timestamp) (h : (cstr book.atISBN).length < 24) :
    (newBorrowRecord book user loan_time now).ISBN
      = cstr book.atISBN ++ zeros (24 - (cstr book.atISBN).length) ∧
    (newBorrowRecord book user loan_time now).tm_return = { Timestamp.zero with year := -1 } := by
  have h1 : strcpy (zeros sizeofBorrow) 0 book.atISBN
      = cstr book.atISBN ++ zeros (48 - (cstr book.atISBN).length) :=
    strcpy_zeros 48 book.atISBN (by omega)
  unfold newBorrowRecord
  simp only [h1]
  generalize cstr book.atISBN = s at h
  have h48 : 48 - s.length = (24 - s.length) + 24 := by omega
  have hz : zeros (48 - s.length) = zeros (24 - s.length) ++ zeros 24 := by
    rw [h48]
    simp [zeros, List.replicate_add]
  have hs : s ++ zeros (48 - s.length) = (s ++ zeros (24 - s.length)) ++ zeros 24 := by
    rw [hz, List.append_assoc]
  have hl : (s ++ zeros (24 - s.length)).length = 24 := by
    simp [zeros]
    omega
  constructor
  · show field (s ++ zeros (48 - s.length)) 0 24 = _
    rw [hs]
    unfold field
    rw [List.drop_zero, List.take_append_of_le_length (by omega)]
    exact List.take_of_length_le (by omega)
  · show ({ decodeTimestamp (field (s ++ zeros (48 - s.length)) 40 8) with year := -1 }
      : Timestamp) = _
    have hf : field (s ++ zeros (48 - s.length)) 40 8 = zeros 8 := by
      rw [hs]
      unfold field
      rw [List.drop_append_eq_append_drop, hl]
      rw [List.drop_of_length_le (by omega)]
      rfl
    rw [hf]
    rfl

/-- The C string at the `ISBN` field of the record `SvrBorrow` stores is the
book's ISBN string, when that ends inside the field. -/
theorem newBorrowRecord_atISBN (book : BookRecord) (user : AccountRecord) (loan_time : Int)
    (now : Timestamp) (h : (cstr book.atISBN).length < 24) :
    cstr (newBorrowRecord book user loan_time now).atISBN = cstr book.atISBN := by
  unfold BorrowRecord.atISBN encodeBorrow
  rw [(newBorrowRecord_fields book user loan_time now h).1]
  have h2 : 24 - (cstr book.atISBN).length = (24 - (cstr book.atISBN).length - 1) + 1 := by omega
  rw [h2]
  simp only [zeros, List.replicate_succ, List.append_assoc, List.cons_append]
  exact cstr_append_zero _ _ (cstr_nonzero _)

/-- Lowering or raising the stock does not change what `ISBNMatch` sees. -/
theorem ISBNMatch_stock (ISBN : List Nat) (book : BookRecord) (n : Nat) :
    ISBNMatch ISBN { book with stock := n } = ISBNMatch ISBN book := rfl

theorem host_eq_of (sys sys1 : LibrarySystem) (ha : sys1.database.AccountRecords = sys.database.AccountRecords)
    (hs : sys1.session = sys.session) : host sys1 = host sys := by
  unfold host
  rw [ha, hs]

/-- The effect of a borrow whose preconditions hold, with the new system
written out. -/
theorem SvrBorrow_done (sys : LibrarySystem) (user : AccountRecord) (ISBN : List Nat)
    (loan_time : Int) (now : Timestamp) (i : Nat) (book : BookRecord)
    (hhost : host sys = some user)
    (hperm : CheckAccess user.group Borrow = true) (hbal : 0 ≤ user.amount)
    (hfind : TLMatch (ISBNMatch ISBN) sys.database.BookRecords = some i)
    (hbook : sys.database.BookRecords[i]? = some book)
    (hstock : 0 < book.stock) (hdays : 0 < loan_time) :
    SvrBorrow sys ISBN loan_time now = some (Msg.borrowDone,
      { sys with
        database :=
          { sys.database with
            header :=
              { sys.database.header with
                borrow_rec_num := (sys.database.header.borrow_rec_num + 1) % 2 ^ 32 }
            BorrowRecords :=
              sys.database.BorrowRecords ++ [newBorrowRecord book user loan_time now]
            BookRecords :=
              sys.database.BookRecords.set i { book with stock := book.stock - 1 } } }) := by
  unfold SvrBorrow
  rw [hhost]
  have hb : ¬ user.amount < 0 := by omega
  have hs : ¬ book.stock = 0 := by omega
  have hd : ¬ loan_time ≤ 0 := by omega
  simp only [hperm, hb, Bool.not_true, Bool.false_eq_true, if_false]
  unfold SvrBorrowBody
  simp only [hfind, hbook, hs, hd, if_false]

/-- The same effect, field by field. -/
theorem SvrBorrow_done_fields (sys : LibrarySystem) (user : AccountRecord) (ISBN : List Nat)
    (loan_time : Int) (now : Timestamp) (i : Nat) (book : BookRecord)
    (hhost : host sys = some user)
    (hperm : CheckAccess user.group Borrow = true) (hbal : 0 ≤ user.amount)
    (hfind : TLMatch (ISBNMatch ISBN) sys.database.BookRecords = some i)
    (hbook : sys.database.BookRecords[i]? = some book)
    (hstock : 0 < book.stock) (hdays : 0 < loan_time) :
    ∃ sys1, SvrBorrow sys ISBN loan_time now = some (Msg.borrowDone, sys1) ∧
      sys1.database.BorrowRecords
        = sys.database.BorrowRecords ++ [newBorrowRecord book user loan_time now] ∧
      sys1.database.BookRecords
        = sys.database.BookRecords.set i { book with stock := book.stock - 1 } ∧
      sys1.database.AccountRecords = sys.database.AccountRecords ∧
      sys1.session = sys.session ∧
      sys1.database.header
        = { sys.database.header with
            borrow_rec_num := (sys.database.header.borrow_rec_num + 1) % 2 ^ 32 } :=
  ⟨_, SvrBorrow_done sys user ISBN loan_time now i book hhost hperm hbal hfind hbook hstock hdays,
    rfl, rfl, rfl, rfl, rfl⟩

/-- From stock `n`, `n` consecutive borrows succeed and one more is refused
for lack of stock. -/
theorem SvrBorrowSeq_exhausts (n : Nat) :
    ∀ (sys : LibrarySystem) (user : AccountRecord) (ISBN : List Nat) (i : Nat)
      (book : BookRecord) (reqs : List (Int × Timestamp)) (d : Int) (t : Timestamp),
      host sys = some user → CheckAccess user.group Borrow = true → 0 ≤ user.amount →
      TLMatch (ISBNMatch ISBN) sys.database.BookRecords = some i →
      sys.database.BookRecords[i]? = some book → book.stock = n →
      reqs.length = n → (∀ r ∈ reqs, 0 < r.1) →
      ∃ sys1, SvrBorrowSeq sys ISBN (reqs ++ [(d, t)])
          = some (List.replicate n Msg.borrowDone ++ [Msg.noStock], sys1) ∧
        sys1.database.BorrowRecords.length = sys.database.BorrowRecords.length + n ∧
        sys1.database.BookRecords[i]? = some { book with stock := 0 } := by
  induction n with
  | zero =>
    intro sys user ISBN i book reqs d t hhost hperm hbal hfind hbook hstock hlen _
    have hreqs : reqs = [] := List.length_eq_zero.mp hlen
    subst hreqs
    refine ⟨sys, ?_, by simp, ?_⟩
    · have hb : ¬ user.amount < 0 := by omega
      simp [SvrBorrowSeq, SvrBorrow, hhost, hperm, hb, SvrBorrowBody, hfind, hbook, hstock]
    · rw [hbook, ← hstock]
  | succ n ih =>
    intro sys user ISBN i book reqs d t hhost hperm hbal hfind hbook hstock hlen hpos
    cases reqs with
    | nil => simp at hlen
    | cons r rest =>
      obtain ⟨d0, t0⟩ := r
      have hd0 : 0 < d0 := hpos (d0, t0) (by simp)
      obtain ⟨sys1, hstep, hbor1, hbk1, hacc1, hses1, -⟩ :=
        SvrBorrow_done_fields sys user ISBN d0 t0 i book hhost hperm hbal hfind hbook
          (by omega) hd0
      have hi : i < sys.database.BookRecords.length := by
        rcases List.getElem?_eq_some.mp hbook with ⟨h, -⟩
        exact h
      obtain ⟨sys2, hseq, hl2, hb2⟩ := ih sys1 user ISBN i { book with stock := book.stock - 1 }
        rest d t (by rw [host_eq_of sys sys1 hacc1 hses1]; exact hhost) hperm hbal
        (by
          rw [hbk1, TLMatch_set_same _ _ i book _ hbook (ISBNMatch_stock _ _ _)]
          exact hfind)
        (by
          rw [hbk1]
          simp [List.getElem?_set, hi])
        (by simp; omega) (by simpa using hlen)
        (fun r hr => hpos r (by simp [hr]))
      refine ⟨sys2, ?_, ?_, ?_⟩
      · rw [List.cons_append]
        simp only [SvrBorrowSeq, hstep, hseq, List.replicate_succ, List.cons_append]
      · rw [hl2, hbor1]
        simp
        omega
      · rw [hb2]

/-- Borrow on a book whose ISBN string ends inside its field.  When every
precondition of `SvrBorrow` holds (permission, non-negative balance, a book
with the ISBN, stock above 0, positive days) the call appends exactly one
record at the tail of the borrow store, carrying the book's ISBN string, the
caller's identifier, the requested days and the unreturned mark (return year
-1); it lowers the stock of that book by one and leaves the other books, every
account, the earlier borrow records and the session as they were.  From stock
`n` exactly `n` consecutive borrows of the book succeed and the next one is
refused. -/
theorem SvrBorrow_terminated_ISBN (sys : LibrarySystem) (user : AccountRecord)
    (ISBN : List Nat) (loan_time : Int) (now : Timestamp) (i : Nat) (book : BookRecord)
    (hhost : host sys = some user)
    (hperm : CheckAccess user.group Borrow = true) (hbal : 0 ≤ user.amount)
    (hfind : TLMatch (ISBNMatch ISBN) sys.database.BookRecords = some i)
    (hbook : sys.database.BookRecords[i]? = some book)
    (hstr : (cstr book.atISBN).length < 24)
    (hstock : 0 < book.stock) (hdays : 0 < loan_time) (hint : loan_time < 2 ^ 31) :
    (∃ sys1 record, SvrBorrow sys ISBN loan_time now = some (Msg.borrowDone, sys1) ∧
      sys1.database.BorrowRecords = sys.database.BorrowRecords ++ [record] ∧
      cstr record.atISBN = cstr book.atISBN ∧ record.borrower_id = user.id ∧
      (record.loan_time : Int) = loan_time ∧ record.tm_borrow = now ∧
      record.tm_return.year = -1 ∧
      sys1.database.BookRecords
        = sys.database.BookRecords.set i { book with stock := book.stock - 1 } ∧
      (∀ j, j ≠ i → sys1.database.BookRecords[j]? = sys.database.BookRecords[j]?) ∧
      sys1.database.AccountRecords = sys.database.AccountRecords ∧
      sys1.session = sys.session) ∧
    (∀ (reqs : List (Int × Timestamp)) (d : Int) (t : Timestamp),
      reqs.length = book.stock → (∀ r ∈ reqs, 0 < r.1) →
      ∃ sys2, SvrBorrowSeq sys ISBN (reqs ++ [(d, t)])
          = some (List.replicate book.stock Msg.borrowDone ++ [Msg.noStock], sys2) ∧
        sys2.database.BorrowRecords.length = sys.database.BorrowRecords.length + book.stock) := by
  constructor
  · refine ⟨_, newBorrowRecord book user loan_time now,
      SvrBorrow_done sys user ISBN loan_time now i book hhost hperm hbal hfind hbook hstock hdays,
      rfl, newBorrowRecord_atISBN book user loan_time now hstr, rfl, ?_, rfl, rfl, rfl, ?_,
      rfl, rfl⟩
    · show (((loan_time % 2 ^ 32).toNat : Nat) : Int) = loan_time
      have h1 : loan_time % 2 ^ 32 = loan_time := Int.emod_eq_of_lt (by omega) (by omega)
      rw [h1]
      omega
    · intro j hj
      show (sys.database.BookRecords.set i _)[j]? = _
      rw [List.getElem?_set_ne (Ne.symm hj)]
  · intro reqs d t hlen hpos
    obtain ⟨sys2, h1, h2, -⟩ := SvrBorrowSeq_exhausts book.stock sys user ISBN i book reqs d t
      hhost hperm hbal hfind hbook rfl hlen hpos
    exact ⟨sys2, h1, h2⟩

/-- The lemma at the sample ledger: `alice` borrows `A1` (two copies) for
three days. -/
theorem SvrBorrow_terminated_ISBN_sample :
    ∃ sys1, SvrBorrow (demoSys 0 2 [] 1) [65, 49] 3 (demoTime 3 0) = some (Msg.borrowDone, sys1) ∧
      sys1.database.BookRecords = [demoBook 1] ∧ sys1.database.BorrowRecords.length = 1 :=
  match (SvrBorrow_terminated_ISBN (demoSys 0 2 [] 1) (demoAlice 0) [65, 49] 3
    (demoTime 3 0) 0 (demoBook 2) rfl (by decide) (by decide) (by decide) rfl (by decide)
    (by decide) (by decide) (by decide)).1 with
  | ⟨sys1, _, h, hrec, _, _, _, _, _, hbooks, _⟩ =>
    ⟨sys1, h, hbooks.trans (by decide), by rw [hrec]; rfl⟩

/-! ## Return -/

/-- A borrow that reports success passed every gate. -/
theorem SvrBorrow_inv (sys sys1 : LibrarySystem) (user : AccountRecord) (ISBN : List Nat)
    (loan_time : Int) (now : Timestamp) (hhost : host sys = some user)
    (h : SvrBorrow sys ISBN loan_time now = some (Msg.borrowDone, sys1)) :
    ∃ i book, CheckAccess user.group Borrow = true ∧ 0 ≤ user.amount ∧
      TLMatch (ISBNMatch ISBN) sys.database.BookRecords = some i ∧
      sys.database.BookRecords[i]? = some book ∧ 0 < book.stock ∧ 0 < loan_time := by
  unfold SvrBorrow at h
  rw [hhost] at h
  simp only at h
  by_cases hperm : CheckAccess user.group Borrow = true
  swap
  · simp [hperm] at h
  by_cases hbal : user.amount < 0
  · simp [hperm, hbal] at h
  simp only [hperm, hbal, Bool.not_true, Bool.false_eq_true, if_false] at h
  unfold SvrBorrowBody at h
  simp only at h
  cases hm : TLMatch (ISBNMatch ISBN) sys.database.BookRecords with
  | none => simp [hm] at h
  | some i =>
    obtain ⟨book, hbook, -, -⟩ := TLMatch_some_get _ _ _ hm
    simp only [hm, hbook] at h
    by_cases hstock : book.stock = 0
    · simp [hstock] at h
    by_cases hdays : loan_time ≤ 0
    · simp [hstock, hdays] at h
    exact ⟨i, book, hperm, by omega, rfl, hbook, by omega, by omega⟩

theorem listActive_eq_count (books : List BookRecord) (id : Nat) (l : List BorrowRecord)
    (h : ∀ r ∈ l, isActiveOf id r = true → TLMatch (ISBNMatch r.atISBN) books ≠ none) :
    listActive books id l = some (l.countP (isActiveOf id)) := by
  induction l with
  | nil => rfl
  | cons r rs ih =>
    have ih1 := ih (fun x hx => h x (List.mem_cons_of_mem _ hx))
    by_cases hact : isActiveOf id r = true
    · have hne := h r (List.mem_cons_self _ _) hact
      cases hm : TLMatch (ISBNMatch r.atISBN) books with
      | none => exact absurd hm hne
      | some k => simp [listActive, hact, hm, ih1]
    · simp [listActive, hact, ih1]

theorem selectActive_last (id : Nat) (new : BorrowRecord) (hnew : isActiveOf id new = true)
    (l : List BorrowRecord) :
    ∀ index : Int, selectActive id (index + l.countP (isActiveOf id) + 1) index (l ++ [new])
      = some l.length := by
  induction l with
  | nil =>
    intro index
    simp [selectActive, hnew]
  | cons r rs ih =>
    intro index
    by_cases hact : isActiveOf id r = true
    · have h1 : ¬ (index + 1 = index + ((r :: rs).countP (isActiveOf id) : Nat) + 1) := by
        simp [hact]
        omega
      have h2 : index + ((r :: rs).countP (isActiveOf id) : Nat) + 1
          = (index + 1) + (rs.countP (isActiveOf id) : Nat) + 1 := by
        simp [hact]
        omega
      rw [List.cons_append]
      simp only [selectActive, hact, if_true, h1, if_false]
      rw [h2, ih (index + 1)]
      rfl
    · have h2 : index + ((r :: rs).countP (isActiveOf id) : Nat) + 1
          = index + (rs.countP (isActiveOf id) : Nat) + 1 := by
        simp [hact]
      rw [List.cons_append]
      simp only [selectActive, hact, Bool.false_eq_true, if_false]
      rw [h2, ih index]
      rfl

theorem set_eq_self {α : Type} (l : List α) (i : Nat) (x : α) (h : l[i]? = some x) :
    l.set i x = l := by
  induction l generalizing i with
  | nil => rfl
  | cons y ys ih =>
    cases i with
    | zero =>
      simp at h
      simp [h]
    | succ i =>
      simp at h
      simp [ih i h]

theorem TLMatch_isSome_of_mem {α : Type} (p : α → Bool) (l : List α) (x : α) (hx : x ∈ l)
    (hp : p x = true) : ∃ i y, TLMatch p l = some i ∧ l[i]? = some y := by
  cases hm : TLMatch p l with
  | none =>
    have := (TLMatch_eq_none_iff p l).1 hm x hx
    simp [hp] at this
  | some i =>
    obtain ⟨y, hy, -, -⟩ := TLMatch_some_get p l i hm
    exact ⟨i, y, rfl, hy⟩

theorem host_mem (sys : LibrarySystem) (user : AccountRecord) (h : host sys = some user) :
    user ∈ sys.database.AccountRecords := by
  unfold host at h
  cases hs : sys.session with
  | none => simp [hs] at h
  | some s =>
    simp only [hs] at h
    exact List.getElem?_mem h

/-- Returning the caller's last unreturned record when it sits at the tail of
the borrow store. -/
theorem SvrReturn_last (env : Env) (s1 : LibrarySystem) (user : AccountRecord)
    (bs : List BorrowRecord) (record : BorrowRecord) (i : Nat) (bk : BookRecord)
    (now : Timestamp)
    (hhost : host s1 = some user)
    (hbs : s1.database.BorrowRecords = bs ++ [record])
    (hact : isActiveOf user.id record = true)
    (hrefs : ∀ r ∈ bs, isActiveOf user.id r = true →
      TLMatch (ISBNMatch r.atISBN) s1.database.BookRecords ≠ none)
    (hfind : TLMatch (ISBNMatch record.atISBN) s1.database.BookRecords = some i)
    (hbk : s1.database.BookRecords[i]? = some bk) :
    ∃ msg s2, SvrReturn env s1 ((bs.countP (isActiveOf user.id) : Nat) + 1) now = some (msg, s2) ∧
      msg ≠ Msg.returnNoSuchIndex ∧
      s2.database.BorrowRecords = bs ++ [{ record with tm_return := now }] ∧
      s2.database.BookRecords
        = s1.database.BookRecords.set i { bk with stock := (bk.stock + 1) % 2 ^ 64 } ∧
      s2.database.AccountRecords.map AccountRecord.id
        = s1.database.AccountRecords.map AccountRecord.id ∧
      s2.session = s1.session ∧ s2.database.header = s1.database.header := by
  have hlist : listActive s1.database.BookRecords user.id s1.database.BorrowRecords
      = some (bs.countP (isActiveOf user.id) + 1) := by
    rw [listActive_eq_count, hbs]
    · simp [List.countP_append, hact]
    · intro r hr ha
      rw [hbs] at hr
      rcases List.mem_append.mp hr with h | h
      · exact hrefs r h ha
      · simp at h
        subst h
        simp [hfind]
  have hsel : selectActive user.id ((bs.countP (isActiveOf user.id) : Nat) + 1) 0
      s1.database.BorrowRecords = some bs.length := by
    have := selectActive_last user.id record hact bs 0
    rw [zero_add] at this
    rw [hbs]
    exact this
  have hget : s1.database.BorrowRecords[bs.length]? = some record := by
    rw [hbs]
    simp
  have hset : s1.database.BorrowRecords.set bs.length { record with tm_return := now }
      = bs ++ [{ record with tm_return := now }] := by
    rw [hbs]
    simp
  have hcond : ¬ (((bs.countP (isActiveOf user.id) : Nat) : Int) + 1 < 0 ∨
      ((bs.countP (isActiveOf user.id) : Nat) : Int) + 1
        > ((bs.countP (isActiveOf user.id) + 1 : Nat) : Int)) := by
    push_cast
    omega
  unfold SvrReturn
  simp only [hhost, hlist, hcond, if_false, hsel, hget, hfind, hbk, hset]
  by_cases hlate : toUInt32 (Int.tdiv (GetDuration env now record.tm_borrow) 86400)
      > record.loan_time
  · have hid : record.borrower_id = user.id := by
      simp [isActiveOf] at hact
      exact hact.1
    obtain ⟨b, borrower, hb, hborrower⟩ := TLMatch_isSome_of_mem
      (AccountIDMatch record.borrower_id) s1.database.AccountRecords user (host_mem s1 user hhost)
      (by simp [AccountIDMatch, hid])
    simp only [hlate, if_true, hb, hborrower]
    refine ⟨_, _, rfl, ?_, rfl, rfl, ?_, rfl, rfl⟩
    · split <;> decide
    · show (s1.database.AccountRecords.set b _).map AccountRecord.id = _
      rw [List.map_set]
      exact set_eq_self _ _ _ (by rw [List.getElem?_map, hborrower]; rfl)
  · simp only [hlate, if_false]
    exact ⟨_, _, rfl, by decide, rfl, rfl, rfl, rfl, rfl⟩

theorem host_of_ids (s1 s2 : LibrarySystem) (user : AccountRecord) (h : host s1 = some user)
    (hids : s2.database.AccountRecords.map AccountRecord.id
      = s1.database.AccountRecords.map AccountRecord.id)
    (hses : s2.session = s1.session) : ∃ user2, host s2 = some user2 ∧ user2.id = user.id := by
  unfold host at h ⊢
  rw [hses]
  cases hs : s1.session with
  | none => simp [hs] at h
  | some s =>
    simp only [hs] at h ⊢
    have h1 : (s2.database.AccountRecords.map AccountRecord.id)[s.host_ref]? = some user.id := by
      rw [hids, List.getElem?_map, h]
      rfl
    rw [List.getElem?_map] at h1
    cases h2 : s2.database.AccountRecords[s.host_ref]? with
    | none => simp [h2] at h1
    | some u =>
      simp [h2] at h1
      exact ⟨u, rfl, h1⟩

theorem ISBNMatch_congr (a b : List Nat) (h : cstr a = cstr b) : ISBNMatch a = ISBNMatch b := by
  funext r
  simp [ISBNMatch, streq, h]

theorem stock_restore (book : BookRecord) (h0 : 0 < book.stock) (hr : book.stock < 2 ^ 64) :
    { book with stock := (book.stock - 1 + 1) % 2 ^ 64 } = book := by
  cases book with
  | mk st a b c d =>
    simp only [BookRecord.mk.injEq, and_true] at *
    rw [Nat.sub_add_cancel h0]
    exact Nat.mod_eq_of_lt hr

/-- Borrow and return on a ledger whose books hold ISBN strings that end
inside the field.  If `SvrBorrow` succeeds for a caller and a book, the
following return of that same record (the caller's last listed index) leaves
every book, and so the stock of the borrowed book, as before the borrow, and
the record returned, its return time the clock reading and its return year not
-1; a further return attempt with that selector is refused and changes
nothing: no stock, no balance.  The stocks are `size_t` values, the caller's
unreturned records name stored books, and the clock does not read year -1. -/
theorem SvrBorrow_SvrReturn_terminated_ISBN (env : Env) (sys sys1 : LibrarySystem) (user : AccountRecord)
    (ISBN : List Nat) (loan_time : Int) (now1 now2 now3 : Timestamp)
    (hhost : host sys = some user)
    (hborrow : SvrBorrow sys ISBN loan_time now1 = some (Msg.borrowDone, sys1))
    (hbooks : ∀ b ∈ sys.database.BookRecords, (cstr b.atISBN).length < 24 ∧ b.stock < 2 ^ 64)
    (hrefs : ∀ r ∈ sys.database.BorrowRecords, isActiveOf user.id r = true →
      ∃ b ∈ sys.database.BookRecords, ISBNMatch r.atISBN b = true)
    (hyear : now2.year ≠ -1) :
    ∃ msg sys2 record,
      SvrReturn env sys1 (sys1.database.BorrowRecords.countP (isActiveOf user.id) : Nat) now2
        = some (msg, sys2) ∧
      msg ≠ Msg.returnNoSuchIndex ∧
      sys2.database.BookRecords = sys.database.BookRecords ∧
      sys2.database.BorrowRecords = sys.database.BorrowRecords ++ [record] ∧
      record.tm_return = now2 ∧ record.tm_return.year ≠ -1 ∧
      SvrReturn env sys2 (sys1.database.BorrowRecords.countP (isActiveOf user.id) : Nat) now3
        = some (Msg.returnNoSuchIndex, sys2) := by
  obtain ⟨i, book, hperm, hbal, hfind, hbook, hstock, hdays⟩ :=
    SvrBorrow_inv sys sys1 user ISBN loan_time now1 hhost hborrow
  obtain ⟨s1, hstep, hbor1, hbk1, hacc1, hses1, -⟩ :=
    SvrBorrow_done_fields sys user ISBN loan_time now1 i book hhost hperm hbal hfind hbook
      hstock hdays
  have hs1 : s1 = sys1 := by
    rw [hstep] at hborrow
    injection hborrow with h
    injection h
  subst hs1
  have hmem : book ∈ sys.database.BookRecords := List.getElem?_mem hbook
  obtain ⟨hstr, hrange⟩ := hbooks book hmem
  obtain ⟨-, hpb, -⟩ := TLMatch_some_get _ _ _ hfind
  have hact : isActiveOf user.id (newBorrowRecord book user loan_time now1) = true := by
    simp [isActiveOf, newBorrowRecord]
  have hISBN : ISBNMatch (newBorrowRecord book user loan_time now1).atISBN = ISBNMatch ISBN := by
    apply ISBNMatch_congr
    rw [newBorrowRecord_atISBN book user loan_time now1 hstr]
    obtain ⟨x, hx, hpx, -⟩ := TLMatch_some_get _ _ _ hfind
    rw [hbook] at hx
    cases hx
    simpa [ISBNMatch, streq] using hpx
  have hsame : ∀ q : List Nat, TLMatch (ISBNMatch q) s1.database.BookRecords
      = TLMatch (ISBNMatch q) sys.database.BookRecords := by
    intro q
    rw [hbk1]
    exact TLMatch_set_same _ _ i book _ hbook (ISBNMatch_stock _ _ _)
  have hi : i < sys.database.BookRecords.length := by
    rcases List.getElem?_eq_some.mp hbook with ⟨h, -⟩
    exact h
  have hrefs1 : ∀ r ∈ sys.database.BorrowRecords, isActiveOf user.id r = true →
      TLMatch (ISBNMatch r.atISBN) s1.database.BookRecords ≠ none := by
    intro r hr ha hnone
    rw [hsame] at hnone
    obtain ⟨b, hb, hbm⟩ := hrefs r hr ha
    have := (TLMatch_eq_none_iff _ _).1 hnone b hb
    simp [hbm] at this
  have hhost1 : host s1 = some user := by
    rw [host_eq_of sys s1 hacc1 hses1]
    exact hhost
  obtain ⟨msg, s2, hret, hmsg, hbor2, hbk2, hids2, hses2, -⟩ :=
    SvrReturn_last env s1 user sys.database.BorrowRecords
      (newBorrowRecord book user loan_time now1) i { book with stock := book.stock - 1 } now2
      hhost1 hbor1 hact hrefs1 (by rw [hISBN, hsame]; exact hfind)
      (by rw [hbk1]; simp [List.getElem?_set, hi])
  have hcount : s1.database.BorrowRecords.countP (isActiveOf user.id)
      = sys.database.BorrowRecords.countP (isActiveOf user.id) + 1 := by
    rw [hbor1]
    simp [List.countP_append, hact]
  have hbooks2 : s2.database.BookRecords = sys.database.BookRecords := by
    rw [hbk2, hbk1, List.set_set]
    apply set_eq_self
    rw [hbook]
    exact congrArg some (stock_restore book hstock hrange).symm
  refine ⟨msg, s2, { newBorrowRecord book user loan_time now1 with tm_return := now2 }, ?_,
    hmsg, hbooks2, hbor2, rfl, hyear, ?_⟩
  · rw [hcount]
    exact hret
  · obtain ⟨user2, hhost2, hid2⟩ := host_of_ids s1 s2 user hhost1 hids2 hses2
    have hlist : listActive s2.database.BookRecords user2.id s2.database.BorrowRecords
        = some (sys.database.BorrowRecords.countP (isActiveOf user.id)) := by
      rw [listActive_eq_count, hbor2, hid2]
      · simp [List.countP_append, isActiveOf, hyear]
      · intro r hr ha
        rw [hbor2] at hr
        rw [hid2] at ha
        rcases List.mem_append.mp hr with h | h
        · rw [hbooks2, ← hsame]
          exact hrefs1 r h ha
        · simp at h
          subst h
          simp [isActiveOf, hyear] at ha
    have hcond : ((s1.database.BorrowRecords.countP (isActiveOf user.id) : Nat) : Int) < 0 ∨
        ((s1.database.BorrowRecords.countP (isActiveOf user.id) : Nat) : Int)
          > ((sys.database.BorrowRecords.countP (isActiveOf user.id) : Nat) : Int) := by
      rw [hcount]
      push_cast
      omega
    unfold SvrReturn
    simp only [hhost2, hlist, hcond, if_true]

/-- The lemma at the sample ledger: `alice` borrows `A1` on 3 May and returns
it the same day. -/
theorem SvrBorrow_SvrReturn_terminated_ISBN_sample :
    ∃ msg sys2, SvrReturn demoEnv (demoSys 0 1 [demoBorrow] 1) 1 (demoTime 3 9) = some (msg, sys2) ∧
      sys2.database.BookRecords = [demoBook 2] ∧
      SvrReturn demoEnv sys2 1 (demoTime 3 10) = some (Msg.returnNoSuchIndex, sys2) :=
  match SvrBorrow_SvrReturn_terminated_ISBN demoEnv (demoSys 0 2 [] 1) (demoSys 0 1 [demoBorrow] 1)
    (demoAlice 0) [65, 49] 3 (demoTime 3 0) (demoTime 3 9) (demoTime 3 10) rfl (by decide)
    (by decide) (by decide) (by decide) with
  | ⟨msg, sys2, _, h1, _, h2, _, _, _, h3⟩ => ⟨msg, sys2, h1, h2, h3⟩

/-- Whenever at least one whole day lies between the borrow and the return
(and fewer than `2 ^ 31`), the test `days > target->loan_time` of
`SvrUserBorrowView` holds for every loan period below `2 ^ 31`, and the day
count handed to the fee statement is `2 ^ 32 - d - L` for `d` the elapsed
whole days: `GetDuration` is called with the return time as `begin`, so
`days` is `-d`, and the comparison with the `uint32_t` loan period converts
it to `2 ^ 32 - d`. -/
theorem fee_branch_of_day_elapsed (env : Env) (tb now : Timestamp) (L : Nat) (hL : L < 2 ^ 31)
    (h1 : 86400 ≤ env.mktime now - env.mktime tb)
    (h2 : env.mktime now - env.mktime tb < 86400 * 2 ^ 31) :
    toUInt32 (Int.tdiv (GetDuration env now tb) 86400) > L ∧
    (toUInt32 (Int.tdiv (GetDuration env now tb) 86400 - L) : Int)
      = 2 ^ 32 - (env.mktime now - env.mktime tb) / 86400 - L := by
  unfold GetDuration toUInt32
  generalize env.mktime now = a at *
  generalize env.mktime tb = b at *
  have hneg : b - a = -(a - b) := by ring
  rw [hneg, Int.neg_tdiv, Int.tdiv_eq_ediv (by omega) (by decide)]
  constructor
  · omega
  · omega

/-- **C1 (the code at the failing input).** `alice`, balance 100, returns on
4 May the book borrowed on 3 May for three days: one whole day has elapsed,
within the loan period.  `SvrReturn` takes the fee branch all the same: it
reports a late return and hands the fee computation `4294967292` days,
whatever the fee computation is. -/
theorem SvrReturn_charges_within_loan (fee : Int → Nat → Int) :
    (SvrReturn { mktime := demoClock, subFee := fee } (demoSys 100 1 [demoBorrow] 1) 1
        (demoTime 4 0)).map (fun r => (r.1, r.2.database.AccountRecords))
      = some (if fee 100 4294967292 < 0 then Msg.returnDoneLateInDebt else Msg.returnDoneLate,
          [demoAdmin, demoAlice (fee 100 4294967292)]) := by
  rfl

/-! ## Accounts -/

theorem TLFind_of_nodup {α : Type} [DecidableEq α] (l : List α) (hl : l.Nodup) (i : Nat) (x : α)
    (h : l[i]? = some x) : TLFind x l = some i := by
  unfold TLFind
  induction l generalizing i with
  | nil => simp at h
  | cons y ys ih =>
    cases i with
    | zero =>
      simp at h
      simp [TLMatch, h]
    | succ i =>
      simp at h
      have hne : ¬ y = x := by
        intro hyx
        have hx : x ∈ ys := List.getElem?_mem h
        rw [List.nodup_cons] at hl
        exact hl.1 (hyx ▸ hx)
      simp [TLMatch, hne, ih (List.nodup_cons.mp hl).2 i h]

/-- What `SvrCancelAccount` does, case by case, when the session's host is a
record of a store without byte-identical twins. -/
theorem SvrCancelAccount_eq (sys : LibrarySystem) (s : Session) (user : AccountRecord)
    (hses : sys.session = some s) (hhost : sys.database.AccountRecords[s.host_ref]? = some user)
    (hnodup : sys.database.AccountRecords.Nodup) :
    SvrCancelAccount sys =
      if user.id = 1 then some (Msg.cancelBuiltinAdmin, sys)
      else if sys.database.BorrowRecords.countP (isActiveOf user.id) > 0 then
        some (Msg.cancelHasBorrows, sys)
      else if user.amount < 0 then some (Msg.cancelInDebt, sys)
      else
        some (Msg.cancelDone,
          { database :=
              { sys.database with
                header :=
                  { sys.database.header with
                    account_rec_num :=
                      if sys.database.header.account_rec_num = 0 then 2 ^ 32 - 1
                      else sys.database.header.account_rec_num - 1 }
                AccountRecords := sys.database.AccountRecords.eraseIdx s.host_ref }
            session := none }) := by
  have h1 : host sys = some user := by
    unfold host
    rw [hses]
    exact hhost
  have h2 : GetBorrowNum sys
      = some (sys.database.BorrowRecords.countP (isActiveOf user.id)) := by
    unfold GetBorrowNum
    rw [hses]
    simp only [hhost]
  unfold SvrCancelAccount
  simp only [h1, h2, TLFind_of_nodup _ hnodup _ _ hhost]

/-- **C8.** `SvrCancelAccount` on a target account (the session's host, a
record of an account store without byte-identical twins, under a header whose
account count is a positive `uint32_t`) succeeds if and only if the target's
identifier is not 1, no unreturned borrow record carries its identifier and
its balance is not negative.  On success exactly that account leaves the
store, the others keeping their order, the header's account count drops by
one, books and borrow records stay, and the session ends.  Otherwise the
system is unchanged; identifier 1 is refused whatever its balance and borrow
records. -/
theorem SvrCancelAccount_succeeds_iff (sys : LibrarySystem) (s : Session)
    (user : AccountRecord)
    (hses : sys.session = some s) (hhost : sys.database.AccountRecords[s.host_ref]? = some user)
    (hnodup : sys.database.AccountRecords.Nodup)
    (hnum : 0 < sys.database.header.account_rec_num ∧
      sys.database.header.account_rec_num < 2 ^ 32) :
    ((∃ sys1, SvrCancelAccount sys = some (Msg.cancelDone, sys1)) ↔
      (user.id ≠ 1 ∧ (∀ r ∈ sys.database.BorrowRecords, isActiveOf user.id r = false) ∧
        0 ≤ user.amount)) ∧
    (∀ sys1, SvrCancelAccount sys = some (Msg.cancelDone, sys1) →
      sys1.database.AccountRecords = sys.database.AccountRecords.eraseIdx s.host_ref ∧
      sys1.database.AccountRecords.length + 1 = sys.database.AccountRecords.length ∧
      sys1.database.header.account_rec_num + 1 = sys.database.header.account_rec_num ∧
      sys1.database.BookRecords = sys.database.BookRecords ∧
      sys1.database.BorrowRecords = sys.database.BorrowRecords ∧
      sys1.session = none) ∧
    (∃ msg sys1, SvrCancelAccount sys = some (msg, sys1) ∧
      (msg ≠ Msg.cancelDone → sys1 = sys)) ∧
    (user.id = 1 → SvrCancelAccount sys = some (Msg.cancelBuiltinAdmin, sys)) := by
  have heq := SvrCancelAccount_eq sys s user hses hhost hnodup
  have hcnt : (sys.database.BorrowRecords.countP (isActiveOf user.id) > 0) ↔
      ¬ (∀ r ∈ sys.database.BorrowRecords, isActiveOf user.id r = false) := by
    rw [gt_iff_lt, List.countP_pos_iff]
    simp
  have hlt : s.host_ref < sys.database.AccountRecords.length := by
    rcases List.getElem?_eq_some.mp hhost with ⟨h, -⟩
    exact h
  by_cases hid : user.id = 1
  · simp only [hid, if_true] at heq
    refine ⟨?_, ?_, ⟨_, _, heq, fun _ => rfl⟩, fun _ => heq⟩
    · simp [heq, hid]
    · intro sys1 h
      simp [heq] at h
  by_cases hb : sys.database.BorrowRecords.countP (isActiveOf user.id) > 0
  · simp only [hid, hb, if_true, if_false] at heq
    refine ⟨?_, ?_, ⟨_, _, heq, fun _ => rfl⟩, fun h => absurd h hid⟩
    · have := hcnt.1 hb
      simp [heq]
      intro _ h
      exact absurd h this
    · intro sys1 h
      simp [heq] at h
  by_cases ha : user.amount < 0
  · simp only [hid, hb, ha, if_true, if_false] at heq
    refine ⟨?_, ?_, ⟨_, _, heq, fun _ => rfl⟩, fun h => absurd h hid⟩
    · simp [heq]
      intro _ _
      exact ha
    · intro sys1 h
      simp [heq] at h
  simp only [hid, hb, ha, if_false] at heq
  refine ⟨?_, ?_, ⟨_, _, heq, fun h => absurd rfl h⟩, fun h => absurd h hid⟩
  · constructor
    · intro _
      refine ⟨hid, ?_, by omega⟩
      by_contra hcon
      exact hb (hcnt.2 hcon)
    · intro _
      exact ⟨_, heq⟩
  · intro sys1 h
    rw [heq] at h
    injection h with h
    injection h with _ h
    subst h
    have hne : ¬ sys.database.header.account_rec_num = 0 := by omega
    refine ⟨rfl, ?_, ?_, rfl, rfl, rfl⟩
    · simp only [List.length_eraseIdx, hlt, if_true]
      omega
    · simp only [hne, if_false]
      omega

/-- Witness for C8: `alice`, without debts and loans, cancels her account. -/
theorem SvrCancelAccount_succeeds_iff_witness :
    ∃ sys1, SvrCancelAccount (demoSys 0 2 [] 1) = some (Msg.cancelDone, sys1) ∧
      sys1.database.AccountRecords = [demoAdmin] :=
  match (SvrCancelAccount_succeeds_iff (demoSys 0 2 [] 1)
    { host_ref := 1, tm_establish := demoTime 2 0 } (demoAlice 0) rfl rfl (by decide)
    (by decide)) with
  | ⟨h1, h2, _, _⟩ =>
    match h1.2 ⟨by decide, by decide, by decide⟩ with
    | ⟨sys1, h⟩ => ⟨sys1, h, (h2 sys1 h).1⟩

/-- **C9 (the code at the failing input).** The administrator asks to cancel
`alice`, who owes 30: the request is refused, and the session that comes back
is hosted by `alice` (position 1), not by the administrator (position 0). -/
theorem SvrAccountManageCancel_refused_switches_host :
    SvrAccountManageCancel (demoSys (-30) 2 [] 0) 7
      = some (Msg.cancelInDebt, demoSys (-30) 2 [] 1) := by
  decide

/-- **C10 (the code at the failing input).** `CheckAccess` denies `Recharge`
and `CancelAccount` to a manager, yet `SvrRecharge` raises a manager's balance
by 500 and `SvrCancelAccount` removes the manager's account. -/
theorem SvrRecharge_manager_not_gated :
    CheckAccess UserGroup.Manager Recharge = false ∧
    SvrRecharge (demoManagerSys 0 1) 5 = some (Msg.rechargeDone, demoManagerSys 500 1) ∧
    CheckAccess UserGroup.Manager CancelAccount = false ∧
    (SvrCancelAccount (demoManagerSys 0 1)).map (fun r => (r.1, r.2.database.AccountRecords))
      = some (Msg.cancelDone, [demoAdmin]) := by
  decide

/-! ## The linked list -/

namespace Linked

theorem nextOf_append (xs ys : List Nat) (nx : Option Nat) :
    nextOf (xs ++ ys) nx = nextOf xs (nextOf ys nx) := by
  cases xs <;> rfl

theorem lastOf_cons (pv : Option Nat) (p : Nat) (xs : List Nat) :
    lastOf pv (p :: xs) = lastOf (some p) xs := by
  cases xs with
  | nil => rfl
  | cons q r =>
    cases hl : (q :: r).getLast? with
    | none => simp at hl
    | some x => simp [lastOf, List.getLast?_cons_cons, hl]

theorem Seg_frame {α : Type} (h h1 : Heap α) (ps : List Nat)
    (hsame : ∀ p ∈ ps, h1[p]? = h[p]?) :
    ∀ (pv nx : Option Nat), Seg h pv ps nx → Seg h1 pv ps nx := by
  induction ps with
  | nil => intro _ _ _; trivial
  | cons p rest ih =>
    intro pv nx hseg
    obtain ⟨⟨n, hn, hp, hx⟩, hrest⟩ := hseg
    refine ⟨⟨n, ?_, hp, hx⟩, ih (fun q hq => hsame q (List.mem_cons_of_mem _ hq)) _ _ hrest⟩
    rw [hsame p (List.mem_cons_self _ _)]
    exact hn

theorem Seg_append {α : Type} (h : Heap α) (xs ys : List Nat) :
    ∀ (pv nx : Option Nat),
      Seg h pv (xs ++ ys) nx ↔ Seg h pv xs (nextOf ys nx) ∧ Seg h (lastOf pv xs) ys nx := by
  induction xs with
  | nil =>
    intro pv nx
    simp [Seg, lastOf]
  | cons p rest ih =>
    intro pv nx
    rw [List.cons_append]
    simp only [Seg]
    rw [ih (some p) nx, nextOf_append, lastOf_cons]
    tauto

theorem Seg_valid {α : Type} (h : Heap α) (ps : List Nat) :
    ∀ (pv nx : Option Nat), Seg h pv ps nx → ∀ p ∈ ps, p < h.length := by
  induction ps with
  | nil => intro _ _ _ p hp; cases hp
  | cons q rest ih =>
    intro pv nx hseg p hp
    obtain ⟨⟨n, hn, -, -⟩, hrest⟩ := hseg
    rcases List.mem_cons.mp hp with h1 | h1
    · subst h1
      rcases List.getElem?_eq_some.mp hn with ⟨hlt, -⟩
      exact hlt
    · exact ih _ _ hrest p h1

theorem length_le_of_nodup_lt (ps : List Nat) (n : Nat) (hnd : ps.Nodup)
    (hlt : ∀ p ∈ ps, p < n) : ps.length ≤ n := by
  have hsub : ps ⊆ List.range n := fun p hp => List.mem_range.mpr (hlt p hp)
  have := (List.subperm_of_subset hnd hsub).length_le
  simpa using this

theorem walk_Seg {α : Type} (h : Heap α) (p : α → Bool) (ps : List Nat) :
    ∀ (pv : Option Nat) (fuel : Nat), Seg h pv ps none → ps.length ≤ fuel →
      walk h p fuel (nextOf ps none) = some (firstNode h p ps) := by
  induction ps with
  | nil =>
    intro pv fuel _ _
    cases fuel <;> rfl
  | cons a rest ih =>
    intro pv fuel hseg hfuel
    obtain ⟨⟨n, hn, -, hx⟩, hrest⟩ := hseg
    cases fuel with
    | zero => simp at hfuel
    | succ fuel =>
      simp only [nextOf, walk, hn]
      by_cases hp : p n.data = true
      · simp [hp, firstNode, dataAt, hn]
      · have ih1 := ih (some a) fuel hrest (by simpa using hfuel)
        simp only [hp, Bool.false_eq_true, if_false, hx, ih1]
        simp [firstNode, dataAt, hn, hp]

/-- On a well-formed store the walk visits the nodes in order and returns the
first one whose data the test accepts. -/
theorem TLMatch_spec {α : Type} (h : Heap α) (list : TList) (ps : List Nat) (p : α → Bool)
    (hl : IsList h list ps) : TLMatch h list p = some (firstNode h p ps) := by
  unfold TLMatch
  rw [hl.head]
  cases ps with
  | nil => rfl
  | cons a rest =>
    have hlen := length_le_of_nodup_lt (a :: rest) h.length hl.nodup
      (Seg_valid h _ _ _ hl.seg)
    exact walk_Seg h p (a :: rest) none h.length hl.seg hlen

theorem setNext_other {α : Type} (h : Heap α) (o v : Option Nat) (x : Nat) (hx : some x ≠ o) :
    (setNext h o v)[x]? = h[x]? := by
  cases o with
  | none => rfl
  | some p =>
    have hne : p ≠ x := fun e => hx (by rw [e])
    unfold setNext
    cases hp : h[p]? with
    | none => simp only [hp]
    | some pn => simp only [hp, List.getElem?_set_ne hne]

theorem setPrev_other {α : Type} (h : Heap α) (o v : Option Nat) (x : Nat) (hx : some x ≠ o) :
    (setPrev h o v)[x]? = h[x]? := by
  cases o with
  | none => rfl
  | some p =>
    have hne : p ≠ x := fun e => hx (by rw [e])
    unfold setPrev
    cases hp : h[p]? with
    | none => simp only [hp]
    | some pn => simp only [hp, List.getElem?_set_ne hne]

theorem setNext_length {α : Type} (h : Heap α) (o v : Option Nat) :
    (setNext h o v).length = h.length := by
  unfold setNext
  cases o with
  | none => rfl
  | some p =>
    cases hp : h[p]? with
    | none => simp only [hp]
    | some pn => simp only [hp, List.length_set]

theorem setPrev_length {α : Type} (h : Heap α) (o v : Option Nat) :
    (setPrev h o v).length = h.length := by
  unfold setPrev
  cases o with
  | none => rfl
  | some p =>
    cases hp : h[p]? with
    | none => simp only [hp]
    | some pn => simp only [hp, List.length_set]

theorem setNext_self {α : Type} (h : Heap α) (p : Nat) (v : Option Nat) (pn : TListNode α)
    (hp : h[p]? = some pn) : (setNext h (some p) v)[p]? = some { pn with next := v } := by
  have hlt : p < h.length := (List.getElem?_eq_some.mp hp).1
  simp [setNext, hp, List.getElem?_set, hlt]

theorem setPrev_self {α : Type} (h : Heap α) (p : Nat) (v : Option Nat) (pn : TListNode α)
    (hp : h[p]? = some pn) : (setPrev h (some p) v)[p]? = some { pn with prev := v } := by
  have hlt : p < h.length := (List.getElem?_eq_some.mp hp).1
  simp [setPrev, hp, List.getElem?_set, hlt]

theorem setNext_data {α : Type} (h : Heap α) (o v : Option Nat) (x : Nat) :
    dataAt (setNext h o v) x = dataAt h x := by
  by_cases hx : some x = o
  · subst hx
    unfold dataAt
    cases hp : h[x]? with
    | none => simp [setNext, hp]
    | some pn => rw [setNext_self h x v pn hp]; rfl
  · unfold dataAt
    rw [setNext_other h o v x hx]

theorem setPrev_data {α : Type} (h : Heap α) (o v : Option Nat) (x : Nat) :
    dataAt (setPrev h o v) x = dataAt h x := by
  by_cases hx : some x = o
  · subst hx
    unfold dataAt
    cases hp : h[x]? with
    | none => simp [setPrev, hp]
    | some pn => rw [setPrev_self h x v pn hp]; rfl
  · unfold dataAt
    rw [setPrev_other h o v x hx]

/-- Rewriting `next` of the last node of a chain redirects the chain's end. -/
theorem Seg_setNext_last {α : Type} (h : Heap α) (xs : List Nat) (nx v : Option Nat) :
    ∀ pv : Option Nat, Seg h pv xs nx → xs.Nodup → xs ≠ [] →
      Seg (setNext h (lastOf pv xs) v) pv xs v := by
  induction xs with
  | nil => intro _ _ _ hne; exact absurd rfl hne
  | cons p rest ih =>
    intro pv hseg hnd _
    obtain ⟨⟨n, hn, hpv, hnx⟩, hrest⟩ := hseg
    rw [lastOf_cons]
    cases rest with
    | nil =>
      refine ⟨⟨{ n with next := v }, ?_, hpv, rfl⟩, trivial⟩
      exact setNext_self h p v n hn
    | cons q r =>
      have hnd2 := (List.nodup_cons.mp hnd).2
      have hpne : some p ≠ lastOf (some p) (q :: r) := by
        intro e
        have hmem : p ∈ q :: r := by
          unfold lastOf at e
          cases hl : (q :: r).getLast? with
          | none => simp at hl
          | some x =>
            rw [hl] at e
            cases e
            exact List.mem_of_getLast?_eq_some hl
        exact (List.nodup_cons.mp hnd).1 hmem
      refine ⟨⟨n, ?_, hpv, hnx⟩, ih (some p) hrest hnd2 (by simp)⟩
      rw [setNext_other _ _ _ _ hpne]
      exact hn

/-- Rewriting `prev` of the first node of a chain redirects the chain's
start. -/
theorem Seg_setPrev_first {α : Type} (h : Heap α) (ys : List Nat) (pv v nx : Option Nat)
    (hseg : Seg h pv ys nx) (hnd : ys.Nodup) :
    Seg (setPrev h (nextOf ys none) v) v ys nx := by
  cases ys with
  | nil => trivial
  | cons q rest =>
    obtain ⟨⟨n, hn, -, hnx⟩, hrest⟩ := hseg
    refine ⟨⟨{ n with prev := v }, setPrev_self h q v n hn, rfl, hnx⟩, ?_⟩
    apply Seg_frame h _ rest _ _ _ hrest
    intro x hx
    apply setPrev_other
    intro e
    cases e
    exact (List.nodup_cons.mp hnd).1 hx

theorem lastOf_none (xs : List Nat) : lastOf none xs = xs.getLast? := by
  unfold lastOf
  cases xs.getLast? <;> rfl

theorem nextOf_none (ys : List Nat) : nextOf ys none = ys.head? := by
  cases ys <;> rfl

theorem head?_append_cons (xs ys : List Nat) (a : Nat) :
    (xs ++ a :: ys).head? = if xs = [] then some a else xs.head? := by
  cases xs <;> simp

theorem head?_append_if (xs ys : List Nat) :
    (xs ++ ys).head? = if xs = [] then ys.head? else xs.head? := by
  cases xs <;> simp

theorem getLast?_append_if (xs ys : List Nat) :
    (xs ++ ys).getLast? = if ys = [] then xs.getLast? else ys.getLast? := by
  cases ys with
  | nil => simp
  | cons y r =>
    rw [List.getLast?_append]
    cases hl : (y :: r).getLast? with
    | none => simp at hl
    | some z => simp

/-- What `TLErase` computes for a node of the store: the two pointer writes
around the node, and the header moved off it. -/
theorem TLErase_member_eq {α : Type} (h : Heap α) (list : TList) (xs ys : List Nat) (a : Nat)
    (n : TListNode α) (hl : IsList h list (xs ++ a :: ys)) (hn : h[a]? = some n) :
    TLErase h list (some a)
      = some (setPrev (setNext h n.prev n.next) n.next n.prev,
          { head := if xs = [] then n.next else list.head,
            tail := if ys = [] then n.prev else list.tail }, true) := by
  have hseg := (Seg_append h xs (a :: ys) none none).1 hl.seg
  obtain ⟨hxs, ⟨m, hm, hprev, hnext⟩, hys⟩ := hseg
  rw [hn] at hm
  cases hm
  rw [lastOf_none] at hprev
  have hnd := hl.nodup
  rw [List.nodup_append] at hnd
  obtain ⟨hndx, hnda, hdis⟩ := hnd
  have hax : a ∉ xs := fun hx => hdis hx (List.mem_cons_self _ _)
  have hvalid := Seg_valid h _ _ _ hl.seg
  have hhead := hl.head
  rw [head?_append_cons] at hhead
  have htail := hl.tail
  rw [getLast?_append_if] at htail
  simp only [List.cons_ne_nil, if_false, List.getLast?_cons_cons] at htail
  -- the first half
  have hfront : ∀ hd, list.head = some hd →
      eraseFront h list hd a n = some (some (setNext h n.prev n.next,
        { head := if xs = [] then n.next else list.head, tail := list.tail })) := by
    intro hd hhd
    unfold eraseFront
    by_cases hx : xs = []
    · subst hx
      simp only [List.getLast?_nil] at hprev
      simp only [if_true] at hhead
      have : hd = a := by
        rw [hhd] at hhead
        injection hhead
      subst this
      simp [hprev, hn, setNext]
    · obtain ⟨p, hp⟩ : ∃ p, xs.getLast? = some p := by
        cases hg : xs.getLast? with
        | none => exact absurd (List.getLast?_eq_none_iff.mp hg) hx
        | some p => exact ⟨p, rfl⟩
      have hpx : p ∈ xs := List.mem_of_getLast?_eq_some hp
      have hplt : p < h.length := hvalid p (List.mem_append_left _ hpx)
      obtain ⟨pn, hpn⟩ : ∃ pn, h[p]? = some pn := ⟨h[p], List.getElem?_eq_getElem hplt⟩
      rw [hp] at hprev
      simp [hprev, hpn, setNext, hx]
  obtain ⟨hd, hhd⟩ : ∃ hd, list.head = some hd := by
    cases xs with
    | nil => exact ⟨a, by rw [hhead]; simp⟩
    | cons x r => exact ⟨x, by rw [hhead]; simp⟩
  have hane : some a ≠ n.prev := by
    rw [hprev]
    intro e
    exact hax (List.mem_of_getLast?_eq_some e.symm)
  have hn1 : (setNext h n.prev n.next)[a]? = some n := by
    rw [setNext_other _ _ _ _ hane]
    exact hn
  unfold TLErase
  simp only [hhd, hn, hfront hd hhd]
  unfold eraseBack
  simp only [hn1]
  cases ys with
  | nil =>
    simp only [nextOf] at hnext
    have ht : list.tail = some a := by simpa using htail
    rw [hnext] at hn1
    simp [hnext, ht, hn1, setPrev]
  | cons q r =>
    simp only [nextOf] at hnext
    have hqlt : q < (setNext h n.prev n.next).length := by
      rw [setNext_length]
      exact hvalid q (by simp)
    obtain ⟨qn, hqn⟩ : ∃ qn, (setNext h n.prev n.next)[q]? = some qn :=
      ⟨_, List.getElem?_eq_getElem hqlt⟩
    rw [hnext] at hqn
    simp [hnext, hqn, setPrev]

/-- Erasing a node of a well-formed store succeeds, leaves the store
well-formed with that node taken out of the sequence and the others in their
order, and touches no data. -/
theorem TLErase_member {α : Type} (h : Heap α) (list : TList) (xs ys : List Nat) (a : Nat)
    (hl : IsList h list (xs ++ a :: ys)) :
    ∃ h1 l1, TLErase h list (some a) = some (h1, l1, true) ∧ IsList h1 l1 (xs ++ ys) ∧
      ∀ x, dataAt h1 x = dataAt h x := by
  have hseg := (Seg_append h xs (a :: ys) none none).1 hl.seg
  obtain ⟨hxs, ⟨n, hn, hprev, hnext⟩, hys⟩ := hseg
  rw [lastOf_none] at hprev
  rw [nextOf_none] at hnext
  have hnd := hl.nodup
  rw [List.nodup_append] at hnd
  obtain ⟨hndx, hnda, hdis⟩ := hnd
  have hndy : ys.Nodup := (List.nodup_cons.mp hnda).2
  have hxy : ∀ x, x ∈ xs → x ∉ ys := fun x hx hy => hdis hx (List.mem_cons_of_mem _ hy)
  refine ⟨_, _, TLErase_member_eq h list xs ys a n hl hn, ?_, ?_⟩
  · constructor
    · rw [List.nodup_append]
      exact ⟨hndx, hndy, fun x hx hy => hxy _ hx hy⟩
    · show (if xs = [] then n.next else list.head) = _
      rw [head?_append_if, hnext, hl.head, head?_append_cons]
      by_cases hx : xs = [] <;> simp [hx]
    · show (if ys = [] then n.prev else list.tail) = _
      rw [getLast?_append_if, hprev, hl.tail, getLast?_append_if]
      by_cases hy : ys = []
      · simp [hy]
      · cases ys with
        | nil => contradiction
        | cons y r => simp [List.getLast?_cons_cons]
    · rw [Seg_append]
      constructor
      · -- the part in front of the erased node
        apply Seg_frame (setNext h n.prev n.next)
        · intro x hx
          apply setPrev_other
          rw [hnext]
          intro e
          exact hxy x hx (List.mem_of_mem_head? e.symm)
        · by_cases hx : xs = []
          · subst hx
            trivial
          · have := Seg_setNext_last h xs (some a) n.next none hxs hndx hx
            rw [lastOf_none, ← hprev, hnext, ← nextOf_none] at this
            rw [hnext, ← nextOf_none]
            exact this
      · -- the part behind it
        have h1 : Seg (setNext h n.prev n.next) (some a) ys none := by
          apply Seg_frame h _ ys _ _ _ hys
          intro x hx
          apply setNext_other
          rw [hprev]
          intro e
          exact hxy x (List.mem_of_getLast?_eq_some e.symm) hx
        have := Seg_setPrev_first _ ys (some a) n.prev none h1 hndy
        rw [nextOf_none, ← hnext] at this
        rw [lastOf_none, ← hprev]
        exact this
  · intro x
    rw [setPrev_data, setNext_data]

/-- Appending to a well-formed store allocates the next free node, links it
behind the tail, and leaves the store well-formed with the node at the end of
the sequence; the data of the other nodes is untouched. -/
theorem TLAppend_spec {α : Type} (h : Heap α) (list : TList) (ps : List Nat) (v : α)
    (hl : IsList h list ps) :
    ∃ h1 l1, TLAppend h list v = some (h1, l1, h.length) ∧ IsList h1 l1 (ps ++ [h.length]) ∧
      dataAt h1 h.length = some v ∧ ∀ x, x < h.length → dataAt h1 x = dataAt h x := by
  have hvalid := Seg_valid h _ _ _ hl.seg
  have hfresh : h.length ∉ ps := fun hm => Nat.lt_irrefl _ (hvalid _ hm)
  rcases List.eq_nil_or_concat ps with hps | ⟨xs, t, hps⟩
  · subst hps
    have hh : list.head = none := hl.head
    refine ⟨h ++ [{ prev := none, next := none, data := v }],
      { head := some h.length, tail := some h.length }, by simp [TLAppend, hh], ?_,
      by simp [dataAt], ?_⟩
    · exact ⟨by simp, rfl, rfl,
        ⟨⟨{ prev := none, next := none, data := v }, by simp, rfl, rfl⟩, trivial⟩⟩
    · intro x hx
      simp [dataAt, List.getElem?_append_left hx]
  · rw [List.concat_eq_append] at hps
    subst hps
    obtain ⟨hd, hhd⟩ : ∃ hd, list.head = some hd := by
      rw [hl.head]
      cases xs <;> simp
    have ht : list.tail = some t := by
      rw [hl.tail]
      simp
    have hseg := (Seg_append h xs [t] none none).1 hl.seg
    obtain ⟨hxs, ⟨tn, htn, hprev, hnext⟩, -⟩ := hseg
    have htlt : t < h.length := hvalid t (by simp)
    have hnd := hl.nodup
    rw [List.nodup_append] at hnd
    obtain ⟨hndx, -, hdis⟩ := hnd
    have htx : t ∉ xs := fun hx => hdis hx (by simp)
    refine ⟨h.set t { tn with next := some h.length }
        ++ [{ prev := some t, next := none, data := v }],
      { list with tail := some h.length }, by simp [TLAppend, hhd, ht, htn], ?_, ?_, ?_⟩
    · constructor
      · rw [List.nodup_append]
        refine ⟨hl.nodup, by simp, ?_⟩
        intro x hx hy
        simp at hy
        subst hy
        exact hfresh hx
      · show list.head = _
        rw [hl.head]
        cases xs <;> simp
      · show some h.length = _
        simp
      · rw [List.append_assoc, Seg_append]
        constructor
        · apply Seg_frame h _ xs _ _ _ hxs
          intro x hx
          have hxlt : x < h.length := hvalid x (by simp [hx])
          have hxt : t ≠ x := fun e => htx (e ▸ hx)
          rw [List.getElem?_append_left (by simpa using hxlt), List.getElem?_set_ne hxt]
        · refine ⟨⟨{ tn with next := some h.length }, ?_, hprev, rfl⟩,
            ⟨⟨{ prev := some t, next := none, data := v }, ?_, rfl, rfl⟩, trivial⟩⟩
          · rw [List.getElem?_append_left (by simpa using htlt)]
            simp [List.getElem?_set, htlt]
          · rw [List.getElem?_append_right (by simp)]
            simp
    · simp [dataAt, List.getElem?_append_right]
    · intro x hx
      unfold dataAt
      rw [List.getElem?_append_left (by simpa using hx)]
      by_cases hxt : t = x
      · subst hxt
        simp [List.getElem?_set, htlt, htn]
      · rw [List.getElem?_set_ne hxt]

theorem contents_congr {α : Type} (h h1 : Heap α) (ps : List Nat)
    (hd : ∀ x ∈ ps, dataAt h1 x = dataAt h x) : contents h1 ps = contents h ps := by
  unfold contents
  induction ps with
  | nil => rfl
  | cons p rest ih =>
    simp only [List.filterMap_cons, hd p (List.mem_cons_self _ _),
      ih (fun x hx => hd x (List.mem_cons_of_mem _ hx))]

/-- The records of the store after an append are the old records followed by
the new one. -/
theorem contents_TLAppend {α : Type} (h : Heap α) (list : TList) (ps : List Nat) (v : α)
    (hl : IsList h list ps) :
    ∃ h1 l1 a, TLAppend h list v = some (h1, l1, a) ∧ IsList h1 l1 (ps ++ [a]) ∧
      contents h1 (ps ++ [a]) = contents h ps ++ [v] := by
  obtain ⟨h1, l1, happ, hl1, hnew, hold⟩ := TLAppend_spec h list ps v hl
  refine ⟨h1, l1, h.length, happ, hl1, ?_⟩
  have hvalid := Seg_valid h _ _ _ hl.seg
  have hc : contents h1 ps = contents h ps :=
    contents_congr h h1 ps (fun x hx => hold x (hvalid x hx))
  unfold contents at hc ⊢
  rw [List.filterMap_append, hc]
  simp [hnew]

/-- The records of the store after erasing one of its nodes are the old
records without the one at the node's position. -/
theorem contents_TLErase {α : Type} (h : Heap α) (list : TList) (xs ys : List Nat) (a : Nat)
    (hl : IsList h list (xs ++ a :: ys)) :
    ∃ h1 l1, TLErase h list (some a) = some (h1, l1, true) ∧ IsList h1 l1 (xs ++ ys) ∧
      contents h1 (xs ++ ys) = (contents h (xs ++ a :: ys)).eraseIdx (contents h xs).length := by
  obtain ⟨h1, l1, her, hl1, hdata⟩ := TLErase_member h list xs ys a hl
  refine ⟨h1, l1, her, hl1, ?_⟩
  rw [contents_congr h h1 _ (fun x _ => hdata x)]
  have hseg := (Seg_append h xs (a :: ys) none none).1 hl.seg
  obtain ⟨-, ⟨n, hn, -, -⟩, -⟩ := hseg
  unfold contents
  rw [List.filterMap_append, List.filterMap_append, List.filterMap_cons]
  simp only [dataAt, hn, Option.map_some']
  rw [List.eraseIdx_append_of_length_le (Nat.le_refl _)]
  simp

theorem firstNode_none_of_absent {α : Type} [DecidableEq α] (h : Heap α) (ps : List Nat) (v : α)
    (hv : v ∉ contents h ps) : firstNode h (fun d => decide (d = v)) ps = none := by
  unfold firstNode
  rw [List.find?_eq_none]
  intro x hx
  cases hd : dataAt h x with
  | none => simp
  | some d =>
    have hmem : d ∈ contents h ps := by
      unfold contents
      rw [List.mem_filterMap]
      exact ⟨x, hx, hd⟩
    have hne : d ≠ v := fun e => hv (e ▸ hmem)
    simp [hne]

/-- **C6 (as amended).** For every well-formed store that holds no record
equal to `v`: after `append(v)` the lookup `find(v)` returns the node just
appended, whose data is `v`; and after erasing that node, which succeeds,
`find(v)` returns none. -/
theorem TLFind_after_TLAppend_and_TLErase {α : Type} [DecidableEq α] (h : Heap α) (list : TList)
    (ps : List Nat) (v : α) (hl : IsList h list ps) (hv : v ∉ contents h ps) :
    (∃ h1 l1 a, TLAppend h list v = some (h1, l1, a) ∧ dataAt h1 a = some v ∧
      TLFind h1 l1 v = some (some a)) ∧
    appendEraseFind h list v = some (true, none) := by
  obtain ⟨h1, l1, happ, hl1, hnew, hold⟩ := TLAppend_spec h list ps v hl
  have hvalid := Seg_valid h _ _ _ hl.seg
  have hc : contents h1 ps = contents h ps :=
    contents_congr h h1 ps (fun x hx => hold x (hvalid x hx))
  have hfind1 : TLFind h1 l1 v = some (some h.length) := by
    unfold TLFind
    rw [TLMatch_spec h1 l1 _ _ hl1]
    have hnone := firstNode_none_of_absent h1 ps v (by rw [hc]; exact hv)
    unfold firstNode at hnone ⊢
    rw [List.find?_append, hnone]
    simp [hnew]
  constructor
  · exact ⟨h1, l1, h.length, happ, hnew, hfind1⟩
  · have hl1b : IsList h1 l1 (ps ++ h.length :: []) := hl1
    obtain ⟨h2, l2, her, hl2, hdata⟩ := TLErase_member h1 l1 ps [] h.length hl1b
    rw [List.append_nil] at hl2
    have hfind2 : TLFind h2 l2 v = some none := by
      unfold TLFind
      rw [TLMatch_spec h2 l2 _ _ hl2]
      rw [firstNode_none_of_absent h2 ps v]
      rw [contents_congr h1 h2 ps (fun x _ => hdata x), hc]
      exact hv
    unfold appendEraseFind
    simp only [happ, her, hfind2]

/-- Witness for C6: the value 11 is appended to store A of `twoStores`, which
holds 10 only. -/
theorem TLFind_after_TLAppend_and_TLErase_witness :
    appendEraseFind twoStores storeA 11 = some (true, none) :=
  (TLFind_after_TLAppend_and_TLErase twoStores storeA [0] 11
    ⟨by decide, rfl, rfl, ⟨⟨_, rfl, rfl, rfl⟩, trivial⟩⟩ (by decide)).2

/-- **C6 (counterexample).** Store A of `twoStores` holds the value 10 at
node 0.  After `append(10)` (the new node is 4) `find(10)` returns node 0, and
after erasing node 4 `find(10)` still returns node 0, not none. -/
theorem TLFind_after_TLErase_finds_duplicate :
    (TLAppend twoStores storeA 10).map (fun r => r.2.2) = some 4 ∧
    appendFind twoStores storeA 10 = some (some 0) ∧
    appendEraseFind twoStores storeA 10 = some (true, some 0) := by
  decide

/-- **C7 (the code at the failing inputs).** Node 2 is the middle node of
store B and no node of store A, yet `TLErase` on store A returns true for it
and unlinks it from store B (node 1 now points to node 3 and back).  Node 3,
the tail of store B, makes `TLErase` on store A return false, but only after
`next` of node 2 has been cleared. -/
theorem TLErase_foreign_node :
    TLErase twoStores storeA (some 2)
      = some ([ { prev := none, next := none, data := 10 },
          { prev := none, next := some 3, data := 21 },
          { prev := some 1, next := some 3, data := 22 },
          { prev := some 1, next := none, data := 23 } ], storeA, true) ∧
    TLErase twoStores storeA (some 3)
      = some ([ { prev := none, next := none, data := 10 },
          { prev := none, next := some 2, data := 21 },
          { prev := some 1, next := none, data := 22 },
          { prev := some 2, next := none, data := 23 } ], storeA, false) := by
  decide

end Linked

/-! ## The role table -/

/-- **C11 (as amended).** Of the twelve operation flags, `CheckAccess` grants a
regular user exactly `Borrow`, `Return`, `Query`, `Register`, `Login`,
`CancelAccount` and `Recharge`, and a manager exactly `Query`, `AddBook`,
`ModifyBook`, `NewRecord` and `WithdrawRecord`. -/
theorem CheckAccess_table :
    opFlags.filter (CheckAccess UserGroup.User)
      = [Borrow, Return, Query, Register, Login, CancelAccount, Recharge] ∧
    opFlags.filter (CheckAccess UserGroup.Manager)
      = [Query, AddBook, ModifyBook, NewRecord, WithdrawRecord] := by
  decide

/-- **C11 (counterexample).** `CancelAccount` is one of the twelve flags, it is
not among the six the claim lists for a regular user, and `CheckAccess` grants
it to a regular user. -/
theorem CheckAccess_User_CancelAccount :
    CancelAccount ∈ opFlags ∧
    CancelAccount ∉ [Borrow, Return, Query, Register, Login, Recharge] ∧
    CheckAccess UserGroup.User CancelAccount = true := by
  decide

/-! ## Selector 0 -/

theorem selectActive_none_of_le (id : Nat) (return_id : Int) (l : List BorrowRecord) :
    ∀ index : Int, return_id ≤ index → selectActive id return_id index l = none := by
  induction l with
  | nil => intro _ _; rfl
  | cons r rs ih =>
    intro index hle
    have h1 : ¬ (index + 1 = return_id) := by omega
    by_cases hact : isActiveOf id r = true
    · simp [selectActive, hact, h1, ih (index + 1) (by omega)]
    · simp [selectActive, hact, ih index hle]

/-- **C14 (the code at the failing input).** The selector 0, which is what
`atoi` makes of a line without digits, passes the range test
`return_id < 0 || return_id > index`; the selection loop then ends with
`target == NULL` and the call dereferences it.  In every system and at every
clock reading option `[1]` of `SvrUserBorrowView` with selector 0 has no
result.  In the sample system, where `alice` is logged in and holds one
unreturned record, the listing ends with `index = 1`, the test
`0 < 0 || 0 > 1` is false and the selection loop finds no record. -/
theorem SvrReturn_selector_zero (env : Env) (sys : LibrarySystem) (now : Timestamp) :
    SvrReturn env sys 0 now = none ∧
    host (demoSys 100 1 [demoBorrow] 1) = some (demoAlice 100) ∧
    listActive [demoBook 1] 7 [demoBorrow] = some 1 ∧
    ¬ ((0 : Int) < 0 ∨ (0 : Int) > ((1 : Nat) : Int)) ∧
    selectActive 7 0 0 [demoBorrow] = none := by
  refine ⟨?_, by decide, by decide, by decide, by decide⟩
  unfold SvrReturn
  cases hh : host sys with
  | none => rfl
  | some user =>
    simp only
    cases hl : listActive sys.database.BookRecords user.id sys.database.BorrowRecords with
    | none => rfl
    | some index =>
      have hcond : ¬ ((0 : Int) < 0 ∨ (0 : Int) > (index : Int)) := by omega
      simp only [hcond, if_false,
        selectActive_none_of_le user.id 0 sys.database.BorrowRecords 0 (le_refl _)]

/-! ## The file -/

theorem putU_length (w x : Nat) : (putU w x).length = w := by
  induction w generalizing x with
  | zero => rfl
  | succ w ih => simp [putU, ih]

theorem getU_putU (w x : Nat) : getU (putU w x) = x % 256 ^ w := by
  induction w generalizing x with
  | zero => simp [putU, getU, Nat.mod_one]
  | succ w ih =>
    simp only [putU, getU, ih]
    rw [pow_succ, mul_comm (256 ^ w) 256, Nat.mod_mul]

theorem putS_length (w : Nat) (x : Int) : (putS w x).length = w :=
  putU_length w _

theorem getU_putU_of_lt (w x : Nat) (h : x < 256 ^ w) : getU (putU w x) = x := by
  rw [getU_putU, Nat.mod_eq_of_lt h]

/-- A signed value in the range of `w` bytes survives the two's complement
image. -/
theorem getS_putS (w : Nat) (x : Int) (hlo : -(256 ^ w : Int) ≤ 2 * x)
    (hhi : 2 * x < (256 ^ w : Int)) : getS w (putS w x) = x := by
  unfold getS putS
  rw [getU_putU]
  have hM : ((256 : Int) ^ w) = ((256 ^ w : Nat) : Int) := by push_cast; rfl
  rw [hM] at hlo hhi ⊢
  generalize (256 ^ w : Nat) = M at *
  have hpos : (0 : Int) < M := by omega
  have hnn : 0 ≤ x % (M : Int) := Int.emod_nonneg _ (ne_of_gt hpos)
  have hlt : x % (M : Int) < M := Int.emod_lt_of_pos _ hpos
  have hmod : x % (M : Int) = if 0 ≤ x then x else x + M := by
    split
    · exact Int.emod_eq_of_lt (by omega) (by omega)
    · rw [← Int.add_emod_self]
      exact Int.emod_eq_of_lt (by omega) (by omega)
  generalize x % (M : Int) = r at *
  have hu : ((r.toNat : Nat) : Int) = r := Int.toNat_of_nonneg hnn
  have hult : r.toNat < M := by omega
  rw [Nat.mod_eq_of_lt hult]
  split at hmod <;> split <;> omega

theorem field_here (a b : List Nat) (w : Nat) (h : a.length = w) : field (a ++ b) 0 w = a := by
  unfold field
  rw [List.drop_zero, List.take_left' h]

theorem field_self (a : List Nat) (w : Nat) (h : a.length = w) : field a 0 w = a := by
  unfold field
  rw [List.drop_zero, List.take_of_length_le (by omega)]

theorem field_skip (a b : List Nat) (off w : Nat) (h : a.length ≤ off) :
    field (a ++ b) off w = field b (off - a.length) w := by
  unfold field
  rw [List.drop_append_eq_append_drop, List.drop_eq_nil_of_le h]
  rfl

theorem encodeTimestamp_length (t : Timestamp) : (encodeTimestamp t).length = 8 := by
  simp [encodeTimestamp, putS_length]

theorem decodeTimestamp_encode (t : Timestamp) (ht : t.InRange) :
    decodeTimestamp (encodeTimestamp t) = t := by
  obtain ⟨hy, hmo, hd, hw, hh, hmi, hs⟩ := ht
  have e2 : ∀ x : Int, -(2 : Int) ^ 15 ≤ x ∧ x < 2 ^ 15 → getS 2 (putS 2 x) = x :=
    fun x hx => getS_putS 2 x (by norm_num; omega) (by norm_num; omega)
  have e1 : ∀ x : Int, -128 ≤ x ∧ x < 128 → getS 1 (putS 1 x) = x :=
    fun x hx => getS_putS 1 x (by norm_num; omega) (by norm_num; omega)
  cases t with
  | mk year month day weekday hour min sec =>
    simp only [decodeTimestamp, encodeTimestamp, Timestamp.mk.injEq]
    simp only [field_skip, field_here, field_self, putS_length, Nat.reduceSub, Nat.reduceLeDiff,
      e2 year hy, e1 month hmo, e1 day hd, e1 weekday hw, e1 hour hh, e1 min hmi, e1 sec hs,
      and_self]

theorem ofValue_value (g : UserGroup) : UserGroup.ofValue (getU (putU 4 g.value)) = g := by
  cases g <;> decide

theorem encodeAccount_length (r : AccountRecord) (hr : r.InRange) :
    (encodeAccount r).length = sizeofAccount := by
  obtain ⟨ha, hp, -⟩ := hr
  simp [encodeAccount, putU_length, putS_length, encodeTimestamp_length, ha, hp, sizeofAccount]

theorem decodeAccount_encode (r : AccountRecord) (hr : r.InRange) :
    decodeAccount (encodeAccount r) = r := by
  obtain ⟨ha, hp, hh, hi, ham, ht⟩ := hr
  cases r with
  | mk group account password hashkey id amount tm =>
    simp only at ha hp hh hi ham ht
    simp only [decodeAccount, encodeAccount, AccountRecord.mk.injEq]
    simp only [field_skip, field_here, field_self, putU_length, putS_length,
      encodeTimestamp_length, ha, hp, Nat.reduceSub, Nat.reduceLeDiff, ofValue_value,
      getU_putU_of_lt 4 hashkey (by norm_num; omega), getU_putU_of_lt 4 id (by norm_num; omega),
      getS_putS 4 amount (by norm_num; omega) (by norm_num; omega),
      decodeTimestamp_encode tm ht, and_self]

theorem encodeBook_length (r : BookRecord) (hr : r.InRange) :
    (encodeBook r).length = sizeofBook := by
  obtain ⟨-, h1, h2, h3, -⟩ := hr
  simp [encodeBook, putU_length, encodeTimestamp_length, h1, h2, h3, sizeofBook]

theorem decodeBook_encode (r : BookRecord) (hr : r.InRange) :
    decodeBook (encodeBook r) = r := by
  obtain ⟨hs, h1, h2, h3, ht⟩ := hr
  cases r with
  | mk stock ISBN author name tm =>
    simp only at hs h1 h2 h3 ht
    simp only [decodeBook, encodeBook, BookRecord.mk.injEq]
    simp only [field_skip, field_here, field_self, putU_length, encodeTimestamp_length,
      h1, h2, h3, Nat.reduceSub, Nat.reduceLeDiff,
      getU_putU_of_lt 8 stock (by norm_num; omega), decodeTimestamp_encode tm ht, and_self]

theorem encodeBorrow_length (r : BorrowRecord) (hr : r.InRange) :
    (encodeBorrow r).length = sizeofBorrow := by
  obtain ⟨h1, -⟩ := hr
  simp [encodeBorrow, putU_length, encodeTimestamp_length, h1, sizeofBorrow]

theorem decodeBorrow_encode (r : BorrowRecord) (hr : r.InRange) :
    decodeBorrow (encodeBorrow r) = r := by
  obtain ⟨h1, hl, hb, ht1, ht2⟩ := hr
  cases r with
  | mk ISBN loan_time borrower_id tm1 tm2 =>
    simp only at h1 hl hb ht1 ht2
    simp only [decodeBorrow, encodeBorrow, BorrowRecord.mk.injEq]
    simp only [field_skip, field_here, field_self, putU_length, encodeTimestamp_length,
      h1, Nat.reduceSub, Nat.reduceLeDiff,
      getU_putU_of_lt 4 loan_time (by norm_num; omega),
      getU_putU_of_lt 4 borrower_id (by norm_num; omega),
      decodeTimestamp_encode tm1 ht1, decodeTimestamp_encode tm2 ht2, and_self]

theorem drop_append2 (a b c : List Nat) (n : Nat) (h : a.length + b.length = n) :
    (a ++ (b ++ c)).drop n = c := by
  rw [← List.append_assoc]
  exact List.drop_left' (by simp [h])

theorem drop_append3 (a b c d : List Nat) (n : Nat)
    (h : a.length + b.length + c.length = n) : (a ++ (b ++ (c ++ d))).drop n = d := by
  rw [← List.append_assoc, ← List.append_assoc]
  exact List.drop_left' (by simp; omega)

/-- The views the string functions read are the record images from the
offsets of the fields: `account` at 4 and `password` at 20 of an
`AccountRecord`, `ISBN` at 8, `author` at 32 and `name` at 64 of a
`BookRecord`. -/
theorem atField_eq_drop :
    (∀ r : AccountRecord, r.atAccount = (encodeAccount r).drop 4) ∧
    (∀ r : AccountRecord, r.account.length = 16 → r.atPassword = (encodeAccount r).drop 20) ∧
    (∀ r : BookRecord, r.atISBN = (encodeBook r).drop 8) ∧
    (∀ r : BookRecord, r.ISBN.length = 24 → r.atAuthor = (encodeBook r).drop 32) ∧
    (∀ r : BookRecord, r.ISBN.length = 24 → r.author.length = 32 →
      r.atName = (encodeBook r).drop 64) := by
  refine ⟨?_, ?_, ?_, ?_, ?_⟩
  · intro r
    exact (List.drop_left' (putU_length 4 _)).symm
  · intro r h
    exact (drop_append2 _ _ _ 20 (by simp [putU_length, h])).symm
  · intro r
    exact (List.drop_left' (putU_length 8 _)).symm
  · intro r h
    exact (drop_append2 _ _ _ 32 (by simp [putU_length, h])).symm
  · intro r h1 h2
    exact (drop_append3 _ _ _ _ 64 (by simp [putU_length, h1, h2])).symm

theorem encodeHeader_length (hd : LibraryDBInfo) : (encodeHeader hd).length = sizeofHeader := by
  simp [encodeHeader, putU_length, sizeofHeader]

/-- The header an image of a header holds: each field reduced to its width. -/
theorem decodeHeader_encode (hd : LibraryDBInfo) (rest : List Nat) :
    decodeHeader (encodeHeader hd ++ rest)
      = { account_rec_size := hd.account_rec_size % 2 ^ 16
          book_rec_size := hd.book_rec_size % 2 ^ 16
          borrow_rec_size := hd.borrow_rec_size % 2 ^ 16
          unused_1 := hd.unused_1 % 2 ^ 16
          account_rec_num := hd.account_rec_num % 2 ^ 32
          book_rec_num := hd.book_rec_num % 2 ^ 32
          borrow_rec_num := hd.borrow_rec_num % 2 ^ 32
          unused_2 := hd.unused_2 % 2 ^ 32 } := by
  simp only [decodeHeader, encodeHeader, List.append_assoc]
  simp only [field_skip, field_here, putU_length, Nat.reduceSub, Nat.reduceLeDiff, getU_putU]
  norm_num

theorem fread_exact (cap : Nat) (buf image rest : List Nat) (h : image.length = cap) :
    fread cap buf cap (image ++ rest) = (image, rest) := by
  unfold fread
  rw [List.take_left' h, List.drop_left' h, List.take_left' h]

/-- Reading back what `writeRecords` wrote: as many records as were written,
each of the size read, come back as their images, and the file position is
behind them. -/
theorem readRecords_writeRecords {α : Type} (encode : α → List Nat) (cap : Nat)
    (rs : List α) (hlen : ∀ r ∈ rs, (encode r).length = cap) :
    ∀ (buf rest : List Nat),
      readRecords cap cap rs.length buf (writeRecords encode rs ++ rest)
        = (rs.map encode, rest) := by
  induction rs with
  | nil => intro _ _; rfl
  | cons r rs ih =>
    intro buf rest
    have h1 := hlen r (List.mem_cons_self _ _)
    have ih1 := ih (fun x hx => hlen x (List.mem_cons_of_mem _ hx)) (encode r) rest
    simp only [List.length_cons, readRecords, writeRecords, List.append_assoc,
      fread_exact cap buf (encode r) _ h1, ih1, List.map_cons]

theorem map_decode_encode {α : Type} (encode : α → List Nat) (decode : List Nat → α)
    (rs : List α) (h : ∀ r ∈ rs, decode (encode r) = r) :
    (rs.map encode).map decode = rs := by
  induction rs with
  | nil => rfl
  | cons r rs ih =>
    simp only [List.map_cons, h r (List.mem_cons_self _ _),
      ih (fun x hx => h x (List.mem_cons_of_mem _ hx))]

/-- **C5.** For every in-memory ledger (fields within their C types, header
sizes the layout sizes, header counts the store lengths), `OpenLibraryDB` on
the bytes `ExportLibraryDB` writes yields the same ledger: the same header,
counts and sizes included, and the same account, book and borrow records,
field for field and in the same order. -/
theorem OpenLibraryDB_ExportLibraryDB (db : LibraryDB) (hdb : db.InMemory) (now : Timestamp)
    (junk : List Nat) : OpenLibraryDB now junk (some (ExportLibraryDB db)) = db := by
  have hhdr : decodeHeader (encodeHeader db.header) = db.header := by
    have := decodeHeader_encode db.header []
    rw [List.append_nil] at this
    rw [this]
    have h1 := hdb.account_size
    have h2 := hdb.book_size
    have h3 := hdb.borrow_size
    have h4 := hdb.unused_1
    have h5 := hdb.unused_2
    have h6 := hdb.account_num
    have h7 := hdb.book_num
    have h8 := hdb.borrow_num
    have h9 := hdb.account_lt
    have h10 := hdb.book_lt
    have h11 := hdb.borrow_lt
    cases hh : db.header with
    | mk a b c d e f g i =>
      rw [hh] at h1 h2 h3 h4 h5 h6 h7 h8
      simp only [sizeofAccount, sizeofBook, sizeofBorrow] at h1 h2 h3 h4 h5 h6 h7 h8
      simp only [LibraryDBInfo.mk.injEq]
      refine ⟨?_, ?_, ?_, ?_, ?_, ?_, ?_, ?_⟩ <;> omega
  have hfr : fread sizeofHeader (zeros sizeofHeader) sizeofHeader (ExportLibraryDB db)
      = (encodeHeader db.header,
          writeRecords encodeAccount db.AccountRecords ++
            (writeRecords encodeBook db.BookRecords ++
              writeRecords encodeBorrow db.BorrowRecords)) :=
    fread_exact sizeofHeader _ _ _ (encodeHeader_length db.header)
  have hacc := readRecords_writeRecords encodeAccount sizeofAccount db.AccountRecords
    (fun r hr => encodeAccount_length r (hdb.accounts r hr)) junk
    (writeRecords encodeBook db.BookRecords ++ writeRecords encodeBorrow db.BorrowRecords)
  have hbk := readRecords_writeRecords encodeBook sizeofBook db.BookRecords
    (fun r hr => encodeBook_length r (hdb.books r hr)) junk
    (writeRecords encodeBorrow db.BorrowRecords)
  have hbr := readRecords_writeRecords encodeBorrow sizeofBorrow db.BorrowRecords
    (fun r hr => encodeBorrow_length r (hdb.borrows r hr)) junk []
  rw [List.append_nil] at hbr
  unfold OpenLibraryDB
  simp only [hfr, hhdr, hdb.account_size, hdb.book_size, hdb.borrow_size, hdb.account_num,
    hdb.book_num, hdb.borrow_num, hacc, hbk, hbr]
  have e1 := map_decode_encode encodeAccount decodeAccount db.AccountRecords
    (fun r hr => decodeAccount_encode r (hdb.accounts r hr))
  have e2 := map_decode_encode encodeBook decodeBook db.BookRecords
    (fun r hr => decodeBook_encode r (hdb.books r hr))
  have e3 := map_decode_encode encodeBorrow decodeBorrow db.BorrowRecords
    (fun r hr => decodeBorrow_encode r (hdb.borrows r hr))
  rw [e1, e2, e3]
  have h1 := hdb.account_size
  have h2 := hdb.book_size
  have h3 := hdb.borrow_size
  have h6 := hdb.account_num
  have h7 := hdb.book_num
  have h8 := hdb.borrow_num
  clear hfr hacc hbk hbr hhdr e1 e2 e3 hdb
  cases db with
  | mk header accounts books borrows =>
    cases header with
    | mk a b c d e f g i =>
      simp only at h1 h2 h3 h6 h7 h8
      subst h1 h2 h3 h6 h7 h8
      rfl

/-- Witness for C5: the sample ledger with one borrow record. -/
theorem OpenLibraryDB_ExportLibraryDB_witness :
    OpenLibraryDB (demoTime 9 9) [] (some (ExportLibraryDB demoDb)) = demoDb :=
  OpenLibraryDB_ExportLibraryDB demoDb
    { account_size := by decide, book_size := by decide, borrow_size := by decide,
      unused_1 := by decide, unused_2 := by decide, account_num := by decide,
      book_num := by decide, borrow_num := by decide, account_lt := by decide,
      book_lt := by decide, borrow_lt := by decide, accounts := by decide,
      books := by decide, borrows := by decide } (demoTime 9 9) []

/-- **C13 (as amended).** `ExportLibraryDB` writes the header as the ledger
holds it: the three size fields of the written header are those of the
in-memory header (as `uint16_t`), not re-derived.  `OpenLibraryDB` stamps the
three size fields with the layout sizes, on a first boot and after loading
alike, so the header written for a ledger that `OpenLibraryDB` produced
carries the byte sizes of the current layouts. -/
theorem ExportLibraryDB_header_sizes (db : LibraryDB) (now : Timestamp) (junk : List Nat)
    (file : Option (List Nat)) :
    ((decodeHeader (ExportLibraryDB db)).account_rec_size = db.header.account_rec_size % 2 ^ 16 ∧
      (decodeHeader (ExportLibraryDB db)).book_rec_size = db.header.book_rec_size % 2 ^ 16 ∧
      (decodeHeader (ExportLibraryDB db)).borrow_rec_size
        = db.header.borrow_rec_size % 2 ^ 16) ∧
    ((OpenLibraryDB now junk file).header.account_rec_size = sizeofAccount ∧
      (OpenLibraryDB now junk file).header.book_rec_size = sizeofBook ∧
      (OpenLibraryDB now junk file).header.borrow_rec_size = sizeofBorrow) ∧
    ((decodeHeader (ExportLibraryDB (OpenLibraryDB now junk file))).account_rec_size
        = sizeofAccount ∧
      (decodeHeader (ExportLibraryDB (OpenLibraryDB now junk file))).book_rec_size
        = sizeofBook ∧
      (decodeHeader (ExportLibraryDB (OpenLibraryDB now junk file))).borrow_rec_size
        = sizeofBorrow) := by
  have hexp : ∀ d : LibraryDB, decodeHeader (ExportLibraryDB d)
      = decodeHeader (encodeHeader d.header ++ (writeRecords encodeAccount d.AccountRecords ++
          (writeRecords encodeBook d.BookRecords ++ writeRecords encodeBorrow d.BorrowRecords))) :=
    fun _ => rfl
  have hopen : (OpenLibraryDB now junk file).header.account_rec_size = sizeofAccount ∧
      (OpenLibraryDB now junk file).header.book_rec_size = sizeofBook ∧
      (OpenLibraryDB now junk file).header.borrow_rec_size = sizeofBorrow := by
    cases file <;> exact ⟨rfl, rfl, rfl⟩
  refine ⟨?_, hopen, ?_⟩
  · rw [hexp, decodeHeader_encode]
    exact ⟨rfl, rfl, rfl⟩
  · rw [hexp, decodeHeader_encode]
    simp only [hopen.1, hopen.2.1, hopen.2.2]
    decide

/-- **C13 (counterexample).** The sample ledger with its header's account size
field set to 0: the header `ExportLibraryDB` writes carries 0, while the
layout size of an account record is 56. -/
theorem ExportLibraryDB_keeps_header_sizes :
    (decodeHeader (ExportLibraryDB demoDbSizeless)).account_rec_size = 0 ∧ sizeofAccount = 56 := by
  decide

/-! ## Reachable states -/

theorem Counted_of_same (db db1 : LibraryDB) (hh : db1.header = db.header)
    (ha : db1.AccountRecords.length = db.AccountRecords.length)
    (hb : db1.BookRecords.length = db.BookRecords.length)
    (hc : db1.BorrowRecords.length = db.BorrowRecords.length) (h : Counted db) : Counted db1 := by
  unfold Counted at *
  rw [hh, ha, hb, hc]
  exact h

theorem Counted_SvrBorrow (sys sys1 : LibrarySystem) (ISBN : List Nat) (loan_time : Int)
    (now : Timestamp) (msg : Msg) (h : SvrBorrow sys ISBN loan_time now = some (msg, sys1))
    (hc : Counted sys.database) : Counted sys1.database := by
  simp only [SvrBorrow, SvrBorrowBody] at h
  repeat' split at h
  all_goals first
    | (simp only [Option.some.injEq, Prod.mk.injEq] at h
       obtain ⟨-, rfl⟩ := h
       first
         | exact hc
         | (obtain ⟨h1, h2, h3⟩ := hc
            refine ⟨h1, ?_, ?_⟩
            · simp only [List.length_set]
              exact h2
            · simp only [List.length_append, List.length_singleton]
              omega))
    | simp at h

theorem TLMatch_lt {α : Type} (p : α → Bool) (l : List α) (i : Nat) (h : TLMatch p l = some i) :
    i < l.length := by
  obtain ⟨x, hx, -, -⟩ := TLMatch_some_get p l i h
  exact (List.getElem?_eq_some.mp hx).1

theorem Counted_SvrReturn (env : Env) (sys sys1 : LibrarySystem) (return_id : Int)
    (now : Timestamp) (msg : Msg) (h : SvrReturn env sys return_id now = some (msg, sys1))
    (hc : Counted sys.database) : Counted sys1.database := by
  simp only [SvrReturn] at h
  repeat' split at h
  all_goals first
    | (simp only [Option.some.injEq, Prod.mk.injEq] at h
       obtain ⟨-, rfl⟩ := h
       first
         | exact hc
         | (obtain ⟨h1, h2, h3⟩ := hc
            refine ⟨?_, ?_, ?_⟩ <;> simp only [List.length_set] <;> assumption))
    | simp at h

theorem TLFind_lt {α : Type} [DecidableEq α] (x : α) (l : List α) (i : Nat)
    (h : TLFind x l = some i) : i < l.length :=
  TLMatch_lt _ l i h

theorem Counted_SvrCancelAccount (sys sys1 : LibrarySystem) (msg : Msg)
    (h : SvrCancelAccount sys = some (msg, sys1)) (hc : Counted sys.database) :
    Counted sys1.database := by
  simp only [SvrCancelAccount] at h
  repeat' split at h
  all_goals first
    | (simp only [Option.some.injEq, Prod.mk.injEq] at h
       obtain ⟨-, rfl⟩ := h
       first
         | exact hc
         | (have hlt := TLFind_lt _ _ _ ‹TLFind _ _ = some _›
            obtain ⟨h1, h2, h3⟩ := hc
            refine ⟨?_, h2, h3⟩
            simp only [List.length_eraseIdx, hlt, if_true]
            omega))
    | simp at h

theorem Counted_SvrRecharge (sys sys1 : LibrarySystem) (amount : Int) (msg : Msg)
    (h : SvrRecharge sys amount = some (msg, sys1)) (hc : Counted sys.database) :
    Counted sys1.database := by
  simp only [SvrRecharge] at h
  repeat' split at h
  all_goals first
    | (simp only [Option.some.injEq, Prod.mk.injEq] at h
       obtain ⟨-, rfl⟩ := h
       first
         | exact hc
         | (obtain ⟨h1, h2, h3⟩ := hc
            refine ⟨?_, h2, h3⟩
            simp only [List.length_set]
            exact h1))
    | simp at h

theorem Counted_SvrAccountManageCancel (sys sys1 : LibrarySystem) (sid : Int) (msg : Msg)
    (h : SvrAccountManageCancel sys sid = some (msg, sys1)) (hc : Counted sys.database) :
    Counted sys1.database := by
  simp only [SvrAccountManageCancel] at h
  repeat' split at h
  all_goals first
    | (simp only [Option.some.injEq, Prod.mk.injEq] at h
       obtain ⟨-, rfl⟩ := h
       first
         | exact hc
         | (have hx := Counted_SvrCancelAccount _ _ _ ‹SvrCancelAccount _ = some _›
            exact hx hc))
    | simp at h

theorem Counted_SvrNewBook (sys sys1 : LibrarySystem) (ISBN name author : List Nat)
    (number : Int) (now : Timestamp) (msg : Msg)
    (h : SvrNewBook sys ISBN name author number now = some (msg, sys1))
    (hc : Counted sys.database) : Counted sys1.database := by
  simp only [SvrNewBook, SvrNewBookBody] at h
  repeat' split at h
  all_goals first
    | (simp only [Option.some.injEq, Prod.mk.injEq] at h
       obtain ⟨-, rfl⟩ := h
       first
         | exact hc
         | (obtain ⟨h1, h2, h3⟩ := hc
            refine ⟨h1, ?_, h3⟩
            first
              | (simp only [List.length_set]
                 exact h2)
              | (simp only [List.length_append, List.length_singleton]
                 omega)))
    | simp at h

theorem Counted_SvrRegister (sys : LibrarySystem) (junk : AccountRecord)
    (account password confirm : List Nat) (draw : Nat) (now : Timestamp)
    (hc : Counted sys.database) :
    Counted (SvrRegister sys junk account password confirm draw now).2.database := by
  unfold SvrRegister
  simp only
  repeat' split
  all_goals first
    | exact hc
    | (obtain ⟨h1, h2, h3⟩ := hc
       refine ⟨?_, h2, h3⟩
       simp only [RegisterAccount, List.length_append, List.length_singleton]
       omega)

theorem Counted_ExclusiveLogin (sys : LibrarySystem) (account password : List Nat)
    (now : Timestamp) (hc : Counted sys.database) :
    Counted (ExclusiveLogin sys account password now).2.database := by
  unfold ExclusiveLogin
  simp only
  repeat' split
  all_goals exact hc

theorem Counted_boot (now : Timestamp) (junk : List Nat) :
    Counted (OpenLibraryDB now junk none) := by
  exact ⟨rfl, rfl, rfl⟩

/-- In every reachable state each header count is the length of its store
modulo `2 ^ 32`. -/
theorem Reachable_Counted (env : Env) (sys : LibrarySystem) (h : Reachable env sys) :
    Counted sys.database := by
  induction h with
  | boot now junk => exact Counted_boot now junk
  | login sys account password now _ ih => exact Counted_ExclusiveLogin sys account password now ih
  | register sys junk account password confirm draw now _ ih =>
    exact Counted_SvrRegister sys junk account password confirm draw now ih
  | cancel sys sys1 msg _ hstep ih => exact Counted_SvrCancelAccount sys sys1 msg hstep ih
  | manageCancel sys sys1 sid msg _ hstep ih =>
    exact Counted_SvrAccountManageCancel sys sys1 sid msg hstep ih
  | recharge sys sys1 amount msg _ hstep ih => exact Counted_SvrRecharge sys sys1 amount msg hstep ih
  | newBook sys sys1 ISBN name author number now msg _ hstep ih =>
    exact Counted_SvrNewBook sys sys1 ISBN name author number now msg hstep ih
  | borrow sys sys1 ISBN loan_time now msg _ hstep ih =>
    exact Counted_SvrBorrow sys sys1 ISBN loan_time now msg hstep ih
  | giveBack sys sys1 return_id now msg _ hstep ih =>
    exact Counted_SvrReturn env sys sys1 return_id now msg hstep ih

/-- **C15.** In every state reachable from a freshly created ledger by
logging in, registering, cancelling accounts, recharging, adding books,
borrowing and returning, each header count equals the length of its store
(whose length a `uint32_t` count can hold): account count and accounts, book
count and books, borrow count and borrow records. -/
theorem Reachable_counts_eq_lengths (env : Env) (sys : LibrarySystem) (h : Reachable env sys)
    (ha : sys.database.AccountRecords.length < 2 ^ 32)
    (hb : sys.database.BookRecords.length < 2 ^ 32)
    (hc : sys.database.BorrowRecords.length < 2 ^ 32) :
    sys.database.header.account_rec_num = sys.database.AccountRecords.length ∧
    sys.database.header.book_rec_num = sys.database.BookRecords.length ∧
    sys.database.header.borrow_rec_num = sys.database.BorrowRecords.length := by
  obtain ⟨h1, h2, h3⟩ := Reachable_Counted env sys h
  rw [Nat.mod_eq_of_lt ha] at h1
  rw [Nat.mod_eq_of_lt hb] at h2
  rw [Nat.mod_eq_of_lt hc] at h3
  exact ⟨h1, h2, h3⟩

set_option maxRecDepth 100000

theorem run6_Reachable : Reachable demoEnv run6 :=
  Reachable.giveBack run5 run6 1 (demoTime 3 9) Msg.returnDone
    (Reachable.borrow run4 run5 [65, 49] 3 (demoTime 3 1) Msg.borrowDone
      (Reachable.login run3 [97, 108, 105, 99, 101] [112, 119, 49] (demoTime 3 0)
        (Reachable.register run2 AccountRecord.zero [97, 108, 105, 99, 101] [112, 119, 49]
          [112, 119, 49] 7 (demoTime 2 0)
          (Reachable.newBook run1 run2 [65, 49] [84] [88] 2 (demoTime 1 2) Msg.newBookDone
            (Reachable.login run0 adminName adminName (demoTime 1 1)
              (Reachable.boot (demoTime 1 0) []))
            (by decide))))
      (by decide))
    (by decide)

/-- Witness for C15: the sample run after the return. -/
theorem Reachable_counts_eq_lengths_witness :
    run6.database.header.account_rec_num = run6.database.AccountRecords.length ∧
    run6.database.header.book_rec_num = run6.database.BookRecords.length ∧
    run6.database.header.borrow_rec_num = run6.database.BorrowRecords.length :=
  Reachable_counts_eq_lengths demoEnv run6 run6_Reachable (by decide) (by decide) (by decide)

/-- **C12 (the code at the failing input).** After the first boot a user
registers and `rand() * rand()` yields 1.  The state is reachable, and in it
two accounts carry the identifier 1: the seeded administrator and the new
regular user. -/
theorem SvrRegister_duplicates_identifier :
    Reachable demoEnv runDraw1 ∧
    runDraw1.database.AccountRecords.map (fun a => (a.id, a.group))
      = [(1, UserGroup.Admin), (1, UserGroup.User)] :=
  ⟨Reachable.register run0 AccountRecord.zero [97, 108, 105, 99, 101] [112, 119, 49]
      [112, 119, 49] 1 (demoTime 2 0) (Reachable.boot (demoTime 1 0) []),
    by decide⟩

/-- **C16 (the code at the failing input).** The administrator adds a book;
`alice` registers (identifier 7), logs in, borrows the book, returns it the
same day and cancels her account.  The state reached holds the returned
borrow record with borrower identifier 7 and no account with that identifier,
and `SvrBorrowRecords` has no result there: the borrower it looks up is
NULL. -/
theorem SvrCancelAccount_orphans_returned_record :
    Reachable demoEnv run7 ∧
    run7.database.AccountRecords.map AccountRecord.id = [1] ∧
    run7.database.BorrowRecords.map BorrowRecord.borrower_id = [7] ∧
    run7.database.BorrowRecords.map
        (fun r => TLMatch (AccountIDMatch r.borrower_id) run7.database.AccountRecords)
      = [none] ∧
    SvrBorrowRecords run7 = none :=
  ⟨Reachable.cancel run6 run7 Msg.cancelDone run6_Reachable (by decide),
    by decide, by decide, by decide, by decide⟩

/-! ## Strings longer than their field -/

/-- A return view whose listing meets an unreturned record of the caller with
no book to its ISBN string has no result, whatever selector is typed. -/
theorem SvrReturn_none_of_listActive (env : Env) (sys : LibrarySystem) (return_id : Int)
    (now : Timestamp)
    (h : (host sys).bind
      (fun user => listActive sys.database.BookRecords user.id sys.database.BorrowRecords)
        = none) :
    SvrReturn env sys return_id now = none := by
  unfold SvrReturn
  cases hh : host sys with
  | none => rfl
  | some user =>
    rw [hh] at h
    simp only [Option.some_bind] at h
    simp only [h]

theorem runLong4_Reachable (env : Env) : Reachable env runLong4 :=
  Reachable.login runLong3 [97, 108, 105, 99, 101] [112, 119, 49] (demoTime 3 0)
    (Reachable.register runLong2 AccountRecord.zero [97, 108, 105, 99, 101] [112, 119, 49]
      [112, 119, 49] 7 (demoTime 2 0)
      (Reachable.newBook run1 runLong2 longISBN [84] [89] 2 (demoTime 1 2) Msg.newBookDone
        (Reachable.login run0 adminName adminName (demoTime 1 1)
          (Reachable.boot (demoTime 1 0) []))
        (by decide)))

/-- **C4 (the code at the failing input).** The administrator has added a book
under the 30-character ISBN `0123456789ABCDEFGHIJKLMNOPQRST` with the author
`Y`.  `strcpy(record.ISBN, ISBN)` wrote the 30 characters over the 24-byte
field and on into `author`, and `strcpy(record.author, author)` then wrote
`Y` and a NUL over the start of `author`: the field `ISBN` holds 24 characters
and no NUL, `author` holds `Y`, NUL, `QRST`, and the string at the book's
`ISBN` field reads `0123456789ABCDEFGHIJKLMNY`.  In the reachable state where
`alice` is logged in, a request for that string meets every precondition of
`SvrBorrow`: her group may borrow, her balance is 0, the lookup finds the
book, its stock is 2, the days are 3.  The call reports success, appends one
record and lowers the stock to 1; but `strcpy(record.ISBN, book->ISBN)` wrote
25 characters and a NUL over the 24-byte field into `loan_time`, which was
assigned afterwards, so the string at the record's `ISBN` field ends with the
byte 3: it is not the book's ISBN string, and no book is found by it. -/
theorem SvrBorrow_long_ISBN_record :
    Reachable demoEnv runLong4 ∧
    runLong4.database.BookRecords.map
        (fun b => (b.stock, b.ISBN, b.author.take 7, cstr b.atISBN))
      = [(2, longISBN.take 24, [89, 0, 81, 82, 83, 84, 0], longKey)] ∧
    (host runLong4).map (fun u => (CheckAccess u.group Borrow, u.amount)) = some (true, 0) ∧
    TLMatch (ISBNMatch longKey) runLong4.database.BookRecords = some 0 ∧
    (SvrBorrow runLong4 longKey 3 (demoTime 3 1)).map (fun r => r.1) = some Msg.borrowDone ∧
    (SvrBorrow runLong4 longKey 3 (demoTime 3 1)).map
        (fun r => r.2.database.BookRecords.map (fun b => (b.stock, cstr b.atISBN)))
      = some [(1, longKey)] ∧
    (SvrBorrow runLong4 longKey 3 (demoTime 3 1)).map
        (fun r => r.2.database.BorrowRecords.map (fun b => (b.ISBN, b.loan_time)))
      = some [(longISBN.take 24, 3)] ∧
    (SvrBorrow runLong4 longKey 3 (demoTime 3 1)).map
        (fun r => r.2.database.BorrowRecords.map (fun b => cstr b.atISBN))
      = some [longISBN.take 24 ++ [3]] ∧
    (SvrBorrow runLong4 longKey 3 (demoTime 3 1)).map
        (fun r => r.2.database.BorrowRecords.map
          (fun b => TLMatch (ISBNMatch b.atISBN) r.2.database.BookRecords))
      = some [none] :=
  ⟨runLong4_Reachable demoEnv, by decide, by decide, by decide, by decide, by decide,
    by decide, by decide, by decide⟩

/-- **C2 (the code at the failing input).** In the reachable state where the
book with the 30-character ISBN is stored and `alice` is logged in, `SvrBorrow`
succeeds for the request `0123456789ABCDEFGHIJKLMNY` and leaves the state
`runLong5`, also reachable, with the stock lowered from 2 to 1.  There option
`[1]` of `SvrUserBorrowView` has no result, whatever selector is typed and
whatever the clock reads: the listing looks up the book of her unreturned
record by the string at the record's `ISBN` field, finds none and dereferences
NULL in `printf`.  The record is not returned and the stock is not restored. -/
theorem SvrReturn_after_long_ISBN_borrow (env : Env) (return_id : Int) (now : Timestamp) :
    Reachable env runLong5 ∧
    SvrBorrow runLong4 longKey 3 (demoTime 3 1) = some (Msg.borrowDone, runLong5) ∧
    runLong4.database.BookRecords.map BookRecord.stock = [2] ∧
    runLong5.database.BookRecords.map BookRecord.stock = [1] ∧
    runLong5.database.BorrowRecords.map (fun r => (r.borrower_id, r.tm_return.year)) = [(7, -1)] ∧
    (host runLong5).map AccountRecord.id = some 7 ∧
    listActive runLong5.database.BookRecords 7 runLong5.database.BorrowRecords = none ∧
    SvrReturn env runLong5 return_id now = none :=
  ⟨Reachable.borrow runLong4 runLong5 longKey 3 (demoTime 3 1) Msg.borrowDone
      (runLong4_Reachable env) (by decide),
    by decide, by decide, by decide, by decide, by decide, by decide,
    SvrReturn_none_of_listActive env runLong5 return_id now (by decide)⟩

end LibSys
